import Mathlib

/-!
# PairLJEopp: a shallow embedding of `src/EXTRA-PAIR/pair_lj_eopp.cpp`

The pair style evaluates the two-term radial potential
`V(r) = c1 / r^n1 + c2 / r^n2 * cos (k * r + phi)`.

Modelling conventions.

* `double` values live in an arbitrary linearly ordered field `α`; the libm
  functions `pow`, `cos`, `sin`, `sqrt` are the fields of `MathOps α`.  The analytic
  statements instantiate `α` with the real numbers and libm with `Real.rpow`,
  `Real.cos`, `Real.sin`, `Real.sqrt`.
* `double **` / `int **` tables are total functions `Nat → Nat → β`; storage returned by
  `memory->create` is not initialised, so a freshly created table holds arbitrary values.
* `error->all` aborts the command; the model returns the error together with the
  instance state at the point of the call.
* `printf` calls have no effect on the state and are dropped.
-/

namespace PairLJEopp

/-! ## Data model -/

/-- The libm functions called by the pair style. -/
structure MathOps (α : Type) where
  /-- The function `pow(x, y)`. -/
  pow : α → α → α
  /-- The function `cos(x)`. -/
  cos : α → α
  /-- The function `sin(x)`. -/
  sin : α → α
  /-- The function `sqrt(x)`. -/
  sqrt : α → α

/-- A two-dimensional per-type-pair array (`double **` or `int **`). -/
abbrev Table (β : Type) := Nat → Nat → β

/-- The assignment `t[i][j] = v`. -/
def Table.set {β : Type} (t : Table β) (i j : Nat) (v : β) : Table β :=
  fun a b => if a = i ∧ b = j then v else t a b

/-- The data members of a `PairLJEopp` instance that the modelled member functions touch. -/
structure Pair (α : Type) where
  allocated : Int
  setflag : Table Int
  cutsq : Table α
  cut : Table α
  epsilon : Table α
  sigma : Table α
  lj1 : Table α
  lj2 : Table α
  lj3 : Table α
  lj4 : Table α
  offset : Table α
  c1 : Table α
  c2 : Table α
  n1 : Table α
  n2 : Table α
  k : Table α
  p : Table α
  cut_global : α
  offset_flag : Int
  mix_flag : Int
  tail_flag : Int

/-- The services of the host program (LAMMPS base classes and utilities) used by the
pair style; none of them is defined in this source file, so they are parameters. -/
structure Host (α : Type) where
  /-- The number of atom types, `atom->ntypes`. -/
  ntypes : Nat
  /-- The base-class `Pair::mix_energy`, which also reads `mix_flag`. -/
  mix_energy : Int → α → α → α → α → α
  /-- The base-class `Pair::mix_distance`, which also reads `mix_flag`. -/
  mix_distance : Int → α → α → α
  /-- The parser `utils::numeric`; `none` when it raises an error. -/
  numeric : String → Option α
  /-- The parser `utils::bounds` with its `nmin`, `nmax` arguments; `none` when it raises
  an error. -/
  bounds : String → Nat → Nat → Option (Nat × Nat)
  /-- The macro `sbmask` extracting the special-bond bits of a neighbor entry. -/
  sbmask : Nat → Nat
  /-- The operation `j & NEIGHMASK` clearing the special-bond bits. -/
  neighmask : Nat → Nat

/-! ## The per-pair kernel of `compute` -/

section Kernel

variable {α : Type} [LinearOrderedField α]

/-- The line `force1 = lj1 * (1.0 / pow(r, n1 + 1.0))` of `compute`. -/
def force1 (m : MathOps α) (s : Pair α) (itype jtype : Nat) (r : α) : α :=
  s.lj1 itype jtype * (1 / m.pow r (s.n1 itype jtype + 1))

/-- The line `force2 = lj2 * (1.0 / pow(r, n2 + 1.0)) * cos(k*r + p)` of `compute`. -/
def force2 (m : MathOps α) (s : Pair α) (itype jtype : Nat) (r : α) : α :=
  s.lj2 itype jtype * (1 / m.pow r (s.n2 itype jtype + 1))
    * m.cos (s.k itype jtype * r + s.p itype jtype)

/-- The line `force3 = (lj4 * k) * (1.0 / pow(r, n2)) * sin(k*r + p)` of `compute`. -/
def force3 (m : MathOps α) (s : Pair α) (itype jtype : Nat) (r : α) : α :=
  (s.lj4 itype jtype * s.k itype jtype) * (1 / m.pow r (s.n2 itype jtype))
    * m.sin (s.k itype jtype * r + s.p itype jtype)

/-- The line `forcelj = force1 + force2 + force3` of `compute`. -/
def forcelj (m : MathOps α) (s : Pair α) (itype jtype : Nat) (r : α) : α :=
  force1 m s itype jtype r + force2 m s itype jtype r + force3 m s itype jtype r

/-- The line `fpair = forcelj * (1.0 / r) * factor_lj` of `compute`. -/
def fpair (m : MathOps α) (s : Pair α) (itype jtype : Nat) (r factor_lj : α) : α :=
  forcelj m s itype jtype r * (1 / r) * factor_lj

/-- The energy lines of `compute` (taken when `eflag` is set):
`evdwl = lj3 * (1/pow(r,n1)); evdwl += lj4 * (1/pow(r,n2)) * cos(k*r+p);`
`evdwl -= offset; evdwl *= factor_lj`. -/
def evdwl (m : MathOps α) (s : Pair α) (itype jtype : Nat) (r factor_lj : α) : α :=
  (s.lj3 itype jtype * (1 / m.pow r (s.n1 itype jtype))
    + s.lj4 itype jtype * (1 / m.pow r (s.n2 itype jtype))
        * m.cos (s.k itype jtype * r + s.p itype jtype)
    - s.offset itype jtype) * factor_lj

end Kernel

/-! ## `init_one` -/

section InitOne

variable {α : Type} [LinearOrderedField α]

/-- The mixing block at the top of `init_one`, taken when `setflag[i][j] == 0`. -/
def init_one_mix (h : Host α) (s : Pair α) (i j : Nat) : Pair α :=
  if s.setflag i j = 0 then
    let e := h.mix_energy s.mix_flag (s.epsilon i i) (s.epsilon j j) (s.sigma i i) (s.sigma j j)
    let s1 := { s with epsilon := s.epsilon.set i j e }
    let sg := h.mix_distance s1.mix_flag (s1.sigma i i) (s1.sigma j j)
    let s2 := { s1 with sigma := s1.sigma.set i j sg }
    let c := h.mix_distance s2.mix_flag (s2.cut i i) (s2.cut j j)
    { s2 with cut := s2.cut.set i j c }
  else s

/-- The assignments `lj1[i][j] = n1*c1; lj2[i][j] = n2*c2; lj3[i][j] = c1; lj4[i][j] = c2`. -/
def init_one_lj (s : Pair α) (i j : Nat) : Pair α :=
  let s1 := { s with lj1 := s.lj1.set i j (s.n1 i j * s.c1 i j) }
  let s2 := { s1 with lj2 := s1.lj2.set i j (s1.n2 i j * s1.c2 i j) }
  let s3 := { s2 with lj3 := s2.lj3.set i j (s2.c1 i j) }
  { s3 with lj4 := s3.lj4.set i j (s3.c2 i j) }

/-- The shift block of `init_one`: in the branch `offset_flag && cut[i][j] > 0.0` the
offset is first assigned `ratio1 + ratio2` and then assigned `0.0`; the other branch
assigns `0.0`. -/
def init_one_offset (m : MathOps α) (s : Pair α) (i j : Nat) : Pair α :=
  if s.offset_flag ≠ 0 ∧ s.cut i j > 0 then
    let ratio1 := s.c1 i j / m.pow (s.cut i j) (s.n1 i j)
    let ratio2 := s.c2 i j / m.pow (s.cut i j) (s.n2 i j)
    let s1 := { s with offset := s.offset.set i j (ratio1 + ratio2) }
    { s1 with offset := s1.offset.set i j 0 }
  else
    { s with offset := s.offset.set i j 0 }

/-- The mirroring block of `init_one`: `lj1[j][i] = lj1[i][j]`, ..., `offset[j][i] =
offset[i][j]`. -/
def init_one_mirror (s : Pair α) (i j : Nat) : Pair α :=
  let s1 := { s with lj1 := s.lj1.set j i (s.lj1 i j) }
  let s2 := { s1 with lj2 := s1.lj2.set j i (s1.lj2 i j) }
  let s3 := { s2 with lj3 := s2.lj3.set j i (s2.lj3 i j) }
  let s4 := { s3 with lj4 := s3.lj4.set j i (s3.lj4 i j) }
  { s4 with offset := s4.offset.set j i (s4.offset i j) }

/-- The member function `init_one(i, j)`: the new instance state and the returned
cutoff `cut[i][j]`. -/
def init_one (m : MathOps α) (h : Host α) (s : Pair α) (i j : Nat) : Pair α × α :=
  let s1 := init_one_mix h s i j
  let s2 := init_one_lj s1 i j
  let s3 := init_one_offset m s2 i j
  let s4 := init_one_mirror s3 i j
  (s4, s4.cut i j)

end InitOne

/-! ## Loops -/

/-- The loop `for (k = lo; k <= hi; k++) body`, threading a state. -/
def forLoop {σ : Type} (lo hi : Nat) (body : σ → Nat → σ) (init : σ) : σ :=
  (List.range' lo (hi + 1 - lo)).foldl body init

/-- The loop `for (k = lo; k <= hi; k++) body` whose body may raise an error. -/
def forLoopM {σ ε : Type} (lo hi : Nat) (body : σ → Nat → Except ε σ) (init : σ) :
    Except ε σ :=
  (List.range' lo (hi + 1 - lo)).foldlM body init

/-! ## `allocate` and `coeff` -/

/-- The ways a command of the pair style can stop. -/
inductive Err where
  /-- The call `error->all(FLERR, msg)` made by this source file. -/
  | error_all (msg : String)
  /-- An error raised inside a host utility (`utils::numeric`, `utils::bounds`,
  `utils::sfread`). -/
  | utils
  /-- A read of `arg[n]` with `n >= narg`, which the language leaves undefined. -/
  | arg_past_end (n : Nat)
  deriving DecidableEq

section Coeff

variable {α : Type} [LinearOrderedField α]

/-- The member function `allocate`: sets `allocated` and clears `setflag[i][j]` for
`1 <= i <= j <= ntypes`.  The other tables are created without initialisation; they keep
the (arbitrary) contents of the incoming state. -/
def allocate (h : Host α) (s : Pair α) : Pair α :=
  let n := h.ntypes + 1
  let s1 := { s with allocated := 1 }
  forLoop 1 (n - 1) (fun s i =>
    forLoop i (n - 1) (fun s j => { s with setflag := s.setflag.set i j 0 }) s) s1

/-- The values parsed by `coeff` from its arguments. -/
structure CoeffVals (α : Type) where
  epsilon_one : α
  sigma_one : α
  cut_one : α
  c_one : α
  eta_one : α
  c_two : α
  eta_two : α
  k_star : α
  phi_star : α

/-- The body of the double loop of `coeff` for the pair `(i, j)`, with the counter. -/
def coeff_body (v : CoeffVals α) (i : Nat) (st : Pair α × Int) (j : Nat) : Pair α × Int :=
  let s := st.1
  ({ s with
      epsilon := s.epsilon.set i j v.epsilon_one
      sigma := s.sigma.set i j v.sigma_one
      cut := s.cut.set i j v.cut_one
      setflag := s.setflag.set i j 1
      c1 := s.c1.set i j v.c_one
      c2 := s.c2.set i j v.c_two
      n1 := s.n1.set i j v.eta_one
      n2 := s.n2.set i j v.eta_two
      k := s.k.set i j v.k_star
      p := s.p.set i j v.phi_star },
   st.2 + 1)

/-- The double loop of `coeff`:
`for (i = ilo; i <= ihi; i++) for (j = MAX(jlo, i); j <= jhi; j++) ...`, starting with
`count = 0`. -/
def coeff_loops (v : CoeffVals α) (ilo ihi jlo jhi : Nat) (s : Pair α) : Pair α × Int :=
  forLoop ilo ihi (fun st i => forLoop (max jlo i) jhi (coeff_body v i) st) (s, 0)

/-- The read of `arg[n]`. -/
def getArg (s : Pair α) (arg : List String) (n : Nat) : Except (Err × Pair α) String :=
  match arg.get? n with
  | some a => .ok a
  | none => .error (Err.arg_past_end n, s)

/-- The call `utils::numeric(FLERR, arg[n], false, lmp)`. -/
def numericArg (h : Host α) (s : Pair α) (arg : List String) (n : Nat) :
    Except (Err × Pair α) α :=
  match getArg s arg n with
  | .error e => .error e
  | .ok a =>
    match h.numeric a with
    | some v => .ok v
    | none => .error (Err.utils, s)

/-- The call `utils::bounds(FLERR, arg[n], 1, atom->ntypes, lo, hi, error)`. -/
def boundsArg (h : Host α) (s : Pair α) (arg : List String) (n : Nat) :
    Except (Err × Pair α) (Nat × Nat) :=
  match getArg s arg n with
  | .error e => .error e
  | .ok a =>
    match h.bounds a 1 h.ntypes with
    | some v => .ok v
    | none => .error (Err.utils, s)

/-- The member function `coeff(narg, arg)`, with `narg` the length of `arg`. -/
def coeff (h : Host α) (s : Pair α) (arg : List String) : Except (Err × Pair α) (Pair α) := do
  let narg := arg.length
  if narg < 4 then throw (Err.error_all "Incorrect args for pair coefficients", s)
  let s := if s.allocated = 0 then allocate h s else s
  let (ilo, ihi) ← boundsArg h s arg 0
  let (jlo, jhi) ← boundsArg h s arg 1
  let epsilon_one ← numericArg h s arg 2
  let sigma_one ← numericArg h s arg 3
  let cut_global := s.cut_global
  let cut_one ← if narg = 11 then numericArg h s arg 4 else pure cut_global
  let c_one ← numericArg h s arg 5
  let eta_one ← numericArg h s arg 6
  let c_two ← numericArg h s arg 7
  let eta_two ← numericArg h s arg 8
  let k_star ← numericArg h s arg 9
  let phi_star ← numericArg h s arg 10
  let v : CoeffVals α :=
    ⟨epsilon_one, sigma_one, cut_one, c_one, eta_one, c_two, eta_two, k_star, phi_star⟩
  let r := coeff_loops v ilo ihi jlo jhi s
  if r.2 = 0 then throw (Err.error_all "Incorrect args for pair coefficients", r.1)
  pure r.1

end Coeff

/-! ## `compute` -/

/-- The per-atom data read by `compute` (`atom->x`, `atom->type`, `atom->nlocal`). -/
structure Atom (α : Type) where
  /-- Positions, `x[i][0..2]`. -/
  x : Table α
  type : Nat → Nat
  nlocal : Nat

/-- The members of `force` read by `compute`. -/
structure Force (α : Type) where
  special_lj : Nat → α
  newton_pair : Int

/-- The neighbor list read by `compute`. -/
structure NeighList where
  inum : Nat
  ilist : Nat → Nat
  numneigh : Nat → Nat
  firstneigh : Nat → Nat → Nat

/-- The arguments of one call of the base-class `ev_tally`. -/
structure Tally (α : Type) where
  i : Nat
  j : Nat
  nlocal : Nat
  newton_pair : Int
  evdwl : α
  ecoul : α
  fpair : α
  delx : α
  dely : α
  delz : α

/-- What `compute` writes: the force array `atom->f`, the local `evdwl`, the sequence of
`ev_tally` calls made so far, and whether `virial_fdotr_compute` was called. -/
structure ComputeState (α : Type) where
  f : Table α
  evdwl : α
  tallies : List (Tally α)
  fdotr : Bool

section Compute

variable {α : Type} [LinearOrderedField α]

/-- The displacement components `delx, dely, delz` (for `c = 0, 1, 2`) of `compute`:
`x[i][c] - x[j][c]`. -/
def del (atom : Atom α) (i j c : Nat) : α := atom.x i c - atom.x j c

/-- The line `rsq = delx * delx + dely * dely + delz * delz` of `compute`. -/
def rsq (atom : Atom α) (i j : Nat) : α :=
  del atom i j 0 * del atom i j 0 + del atom i j 1 * del atom i j 1
    + del atom i j 2 * del atom i j 2

/-- The body of the inner loop of `compute` for atom `i` and the neighbor entry `jraw`. -/
def compute_pair (m : MathOps α) (h : Host α) (s : Pair α) (atom : Atom α) (force : Force α)
    (eflag evflag : Int) (i : Nat) (st : ComputeState α) (jraw : Nat) : ComputeState α :=
  let itype := atom.type i
  let factor_lj := force.special_lj (h.sbmask jraw)
  let j := h.neighmask jraw
  let delx := del atom i j 0
  let dely := del atom i j 1
  let delz := del atom i j 2
  let r := m.sqrt (rsq atom i j)
  let jtype := atom.type j
  if rsq atom i j < s.cutsq itype jtype then
    let fp := fpair m s itype jtype r factor_lj
    let f := st.f
    let f := f.set i 0 (f i 0 + delx * fp)
    let f := f.set i 1 (f i 1 + dely * fp)
    let f := f.set i 2 (f i 2 + delz * fp)
    let f :=
      if force.newton_pair ≠ 0 ∨ j < atom.nlocal then
        let f := f.set j 0 (f j 0 - delx * fp)
        let f := f.set j 1 (f j 1 - dely * fp)
        f.set j 2 (f j 2 - delz * fp)
      else f
    let ev := if eflag ≠ 0 then evdwl m s itype jtype r factor_lj else st.evdwl
    let tl :=
      if evflag ≠ 0 then
        st.tallies ++ [⟨i, j, atom.nlocal, force.newton_pair, ev, 0, fp, delx, dely, delz⟩]
      else st.tallies
    ⟨f, ev, tl, st.fdotr⟩
  else st

/-- The member function `compute`; `evflag` and `vflag_fdotr` are the flags set by the
base-class `ev_init(eflag, vflag)`, and `f0` is the force array on entry. -/
def compute (m : MathOps α) (h : Host α) (s : Pair α) (atom : Atom α) (force : Force α)
    (list : NeighList) (eflag evflag vflag_fdotr : Int) (f0 : Table α) : ComputeState α :=
  let st0 : ComputeState α := ⟨f0, 0, [], false⟩
  let st := (List.range list.inum).foldl (fun st ii =>
    let i := list.ilist ii
    (List.range (list.numneigh i)).foldl (fun st jj =>
      compute_pair m h s atom force eflag evflag i st (list.firstneigh i jj)) st) st0
  if vflag_fdotr ≠ 0 then { st with fdotr := true } else st

end Compute

/-! ## Restart files -/

/-- One record of the binary restart file: an `int` or a `double`. -/
inductive Rec (α : Type) where
  | int (v : Int)
  | dbl (v : α)

section Restart

variable {α : Type} [LinearOrderedField α]

/-- The call `fwrite(&v, sizeof(int), 1, fp)`. -/
def fwrite_int (fp : List (Rec α)) (v : Int) : List (Rec α) := fp ++ [Rec.int v]

/-- The call `fwrite(&v, sizeof(double), 1, fp)`. -/
def fwrite_dbl (fp : List (Rec α)) (v : α) : List (Rec α) := fp ++ [Rec.dbl v]

/-- The member function `write_restart_settings`. -/
def write_restart_settings (s : Pair α) (fp : List (Rec α)) : List (Rec α) :=
  let fp := fwrite_dbl fp s.cut_global
  let fp := fwrite_int fp s.offset_flag
  let fp := fwrite_int fp s.mix_flag
  fwrite_int fp s.tail_flag

/-- The body of the double loop of `write_restart` for the pair `(i, j)`. -/
def write_restart_pair (s : Pair α) (i : Nat) (fp : List (Rec α)) (j : Nat) : List (Rec α) :=
  let fp := fwrite_int fp (s.setflag i j)
  if s.setflag i j ≠ 0 then
    let fp := fwrite_dbl fp (s.epsilon i j)
    let fp := fwrite_dbl fp (s.sigma i j)
    fwrite_dbl fp (s.cut i j)
  else fp

/-- The member function `write_restart`: the file contents after the call. -/
def write_restart (h : Host α) (s : Pair α) (fp : List (Rec α)) : List (Rec α) :=
  let fp := write_restart_settings s fp
  forLoop 1 h.ntypes (fun fp i => forLoop i h.ntypes (write_restart_pair s i) fp) fp

/-- The call `utils::sfread` of one `int`, followed by its broadcast; a short read is an
error of the host utility. -/
def sfread_int (s : Pair α) (fp : List (Rec α)) : Except (Err × Pair α) (Int × List (Rec α)) :=
  match fp with
  | Rec.int v :: rest => .ok (v, rest)
  | _ => .error (Err.utils, s)

/-- The call `utils::sfread` of one `double`, followed by its broadcast. -/
def sfread_dbl (s : Pair α) (fp : List (Rec α)) : Except (Err × Pair α) (α × List (Rec α)) :=
  match fp with
  | Rec.dbl v :: rest => .ok (v, rest)
  | _ => .error (Err.utils, s)

/-- The member function `read_restart_settings`. -/
def read_restart_settings (s : Pair α) (fp : List (Rec α)) :
    Except (Err × Pair α) (Pair α × List (Rec α)) := do
  let (v, fp) ← sfread_dbl s fp
  let s := { s with cut_global := v }
  let (v, fp) ← sfread_int s fp
  let s := { s with offset_flag := v }
  let (v, fp) ← sfread_int s fp
  let s := { s with mix_flag := v }
  let (v, fp) ← sfread_int s fp
  let s := { s with tail_flag := v }
  pure (s, fp)

/-- The body of the double loop of `read_restart` for the pair `(i, j)`. -/
def read_restart_pair (i : Nat) (st : Pair α × List (Rec α)) (j : Nat) :
    Except (Err × Pair α) (Pair α × List (Rec α)) := do
  let (v, fp) ← sfread_int st.1 st.2
  let s := { st.1 with setflag := st.1.setflag.set i j v }
  if s.setflag i j ≠ 0 then
    let (v, fp) ← sfread_dbl s fp
    let s := { s with epsilon := s.epsilon.set i j v }
    let (v, fp) ← sfread_dbl s fp
    let s := { s with sigma := s.sigma.set i j v }
    let (v, fp) ← sfread_dbl s fp
    let s := { s with cut := s.cut.set i j v }
    pure (s, fp)
  else pure (s, fp)

/-- The member function `read_restart`: the new state and the unread rest of the file. -/
def read_restart (h : Host α) (s : Pair α) (fp : List (Rec α)) :
    Except (Err × Pair α) (Pair α × List (Rec α)) := do
  let (s, fp) ← read_restart_settings s fp
  let s := allocate h s
  forLoopM 1 h.ntypes (fun st i => forLoopM i h.ntypes (read_restart_pair i) st) (s, fp)

end Restart

/-! ## Concrete instances used to evaluate the model -/

/-- An instance all of whose tables and settings are zero. -/
def blank (α : Type) [Zero α] : Pair α :=
  { allocated := 0, setflag := fun _ _ => 0, cutsq := fun _ _ => 0, cut := fun _ _ => 0,
    epsilon := fun _ _ => 0, sigma := fun _ _ => 0, lj1 := fun _ _ => 0, lj2 := fun _ _ => 0,
    lj3 := fun _ _ => 0, lj4 := fun _ _ => 0, offset := fun _ _ => 0, c1 := fun _ _ => 0,
    c2 := fun _ _ => 0, n1 := fun _ _ => 0, n2 := fun _ _ => 0, k := fun _ _ => 0,
    p := fun _ _ => 0, cut_global := 0, offset_flag := 0, mix_flag := 0, tail_flag := 0 }

/-- The value of a string of decimal digits; `none` when a character is not a digit. -/
def natOfChars (cs : List Char) : Option Nat :=
  cs.foldl (fun acc c => match acc with
    | none => none
    | some n => if c.isDigit then some (10 * n + (c.toNat - 48)) else none) (some 0)

/-- A stand-in for `utils::numeric` that reads optionally signed decimal integers. -/
def demoNumeric {α : Type} [Field α] (s : String) : Option α :=
  match s.data with
  | '-' :: cs => (natOfChars cs).map (fun n => -(n : α))
  | cs => (natOfChars cs).map (fun n => (n : α))

/-- A stand-in for `utils::bounds` that reads a single type number `n` as the range
`n..n` and `*` as the full range, and refuses numbers outside `nmin..nmax`. -/
def demoBounds (s : String) (nmin nmax : Nat) : Option (Nat × Nat) :=
  match s.data with
  | ['*'] => some (nmin, nmax)
  | cs =>
    match natOfChars cs with
    | some n => if nmin ≤ n ∧ n ≤ nmax then some (n, n) else none
    | none => none

/-- A host with two atom types, arithmetic-mean distance mixing, the stand-in parsers, and
the special-bond encoding in the two bits above bit 29 of a neighbor entry. -/
def demoHost (α : Type) [LinearOrderedField α] : Host α :=
  { ntypes := 2
    mix_energy := fun _ e1 e2 _ _ => e1 * e2
    mix_distance := fun _ a b => (a + b) / 2
    numeric := demoNumeric
    bounds := demoBounds
    sbmask := fun j => (j / 2 ^ 30) % 4
    neighmask := fun j => j % 2 ^ 29 }

/-- The example scenario of the specification stored for every type pair:
`c1 = 1000, n1 = 12, c2 = -50, n2 = 6, k = 0, phi = 0, cutoff = 10`, shift disabled. -/
def scenario (α : Type) [Field α] : Pair α :=
  { blank α with
    allocated := 1, setflag := fun _ _ => 1, cut := fun _ _ => 10, cut_global := 10,
    c1 := fun _ _ => 1000, n1 := fun _ _ => 12, c2 := fun _ _ => -50, n2 := fun _ _ => 6 }

/-- The second example scenario of the specification: the same parameters with
`k = 0.5`. -/
def scenarioOsc (α : Type) [Field α] : Pair α :=
  { scenario α with k := fun _ _ => 1 / 2 }

/-- The example scenario with energy shifting requested (`offset_flag = 1`). -/
def scenarioShift (α : Type) [Field α] : Pair α :=
  { scenario α with offset_flag := 1 }

/-- Two atoms of types 1 and 2 on the x axis, at `0` and at `3`; both are owned. -/
def twoAtoms (α : Type) [Field α] : Atom α :=
  { x := fun i c => if i = 1 ∧ c = 0 then 3 else 0
    type := fun i => i + 1
    nlocal := 2 }

/-- No special-bond scaling and Newton's third law switched on. -/
def plainForce (α : Type) [Field α] : Force α :=
  { special_lj := fun _ => 1, newton_pair := 1 }

/-- A compute state with zero forces and no tally yet. -/
def zeroForces (α : Type) [Field α] : ComputeState α :=
  { f := fun _ _ => 0, evdwl := 0, tallies := [], fdotr := false }

/-- The ten table entries written by the body of the loop of `coeff` hold the parsed
values at `(a, b)`. -/
def CoeffSet {α : Type} (v : CoeffVals α) (s : Pair α) (a b : Nat) : Prop :=
  s.epsilon a b = v.epsilon_one ∧ s.sigma a b = v.sigma_one ∧ s.cut a b = v.cut_one
    ∧ s.setflag a b = 1 ∧ s.c1 a b = v.c_one ∧ s.c2 a b = v.c_two ∧ s.n1 a b = v.eta_one
    ∧ s.n2 a b = v.eta_two ∧ s.k a b = v.k_star ∧ s.p a b = v.phi_star

/-- The ten table entries written by the body of the loop of `coeff` are the same in `s`
and `acc` at `(a, b)`. -/
def CoeffSame {α : Type} (s acc : Pair α) (a b : Nat) : Prop :=
  acc.epsilon a b = s.epsilon a b ∧ acc.sigma a b = s.sigma a b ∧ acc.cut a b = s.cut a b
    ∧ acc.setflag a b = s.setflag a b ∧ acc.c1 a b = s.c1 a b ∧ acc.c2 a b = s.c2 a b
    ∧ acc.n1 a b = s.n1 a b ∧ acc.n2 a b = s.n2 a b ∧ acc.k a b = s.k a b
    ∧ acc.p a b = s.p a b

/-- Every member other than `allocated` and `setflag` is the same in `s` and `acc`. -/
def SameButSetflag {α : Type} (s acc : Pair α) : Prop :=
  acc.cutsq = s.cutsq ∧ acc.cut = s.cut ∧ acc.epsilon = s.epsilon ∧ acc.sigma = s.sigma
    ∧ acc.lj1 = s.lj1 ∧ acc.lj2 = s.lj2 ∧ acc.lj3 = s.lj3 ∧ acc.lj4 = s.lj4
    ∧ acc.offset = s.offset ∧ acc.c1 = s.c1 ∧ acc.c2 = s.c2 ∧ acc.n1 = s.n1 ∧ acc.n2 = s.n2
    ∧ acc.k = s.k ∧ acc.p = s.p ∧ acc.cut_global = s.cut_global
    ∧ acc.offset_flag = s.offset_flag ∧ acc.mix_flag = s.mix_flag
    ∧ acc.tail_flag = s.tail_flag

/-- The state change made by `read_restart` for the pair `(i, j)` when it reads the
records that `write_restart` wrote for that pair of `s`. -/
def restore_pair {α : Type} (s : Pair α) (i : Nat) (acc : Pair α) (j : Nat) : Pair α :=
  let acc := { acc with setflag := acc.setflag.set i j (s.setflag i j) }
  if s.setflag i j ≠ 0 then
    let acc := { acc with epsilon := acc.epsilon.set i j (s.epsilon i j) }
    let acc := { acc with sigma := acc.sigma.set i j (s.sigma i j) }
    { acc with cut := acc.cut.set i j (s.cut i j) }
  else acc

/-- The state change made by `read_restart_settings` when it reads the records that
`write_restart_settings` wrote for `s`. -/
def restore_settings {α : Type} (s s0 : Pair α) : Pair α :=
  let s0 := { s0 with cut_global := s.cut_global }
  let s0 := { s0 with offset_flag := s.offset_flag }
  let s0 := { s0 with mix_flag := s.mix_flag }
  { s0 with tail_flag := s.tail_flag }

/-- The instance obtained from `s0` by `read_restart` on the records written by
`write_restart` for `s`. -/
def restore {α : Type} [LinearOrderedField α] (h : Host α) (s s0 : Pair α) : Pair α :=
  forLoop 1 h.ntypes (fun acc i => forLoop i h.ntypes (restore_pair s i) acc)
    (allocate h (restore_settings s s0))

/-- The persisted entries of the pair `(a, b)` agree: the same `setflag`, and the same
`epsilon`, `sigma`, `cut` when that `setflag` is nonzero. -/
def Agree {α : Type} (s acc : Pair α) (a b : Nat) : Prop :=
  acc.setflag a b = s.setflag a b
    ∧ (s.setflag a b ≠ 0 →
        acc.epsilon a b = s.epsilon a b ∧ acc.sigma a b = s.sigma a b
          ∧ acc.cut a b = s.cut a b)

/-- The members that `read_restart` does not read from the file, and the settings, are
the same in `x` and `acc`. -/
def SameNotPersisted {α : Type} (x acc : Pair α) : Prop :=
  acc.cutsq = x.cutsq ∧ acc.lj1 = x.lj1 ∧ acc.lj2 = x.lj2 ∧ acc.lj3 = x.lj3
    ∧ acc.lj4 = x.lj4 ∧ acc.offset = x.offset ∧ acc.c1 = x.c1 ∧ acc.c2 = x.c2
    ∧ acc.n1 = x.n1 ∧ acc.n2 = x.n2 ∧ acc.k = x.k ∧ acc.p = x.p
    ∧ acc.cut_global = x.cut_global ∧ acc.offset_flag = x.offset_flag
    ∧ acc.mix_flag = x.mix_flag ∧ acc.tail_flag = x.tail_flag

/-! ## `single`, `born_matrix` and the outcome of `init_one` -/

/-- The member function `single(i, j, itype, jtype, rsq, factor_coul, factor_lj, fforce)`:
the returned energy and the value stored in `fforce`. -/
def single {α : Type} [LinearOrderedField α] (s : Pair α) (_i _j itype jtype : Nat)
    (rsq _factor_coul factor_lj : α) : α × α :=
  let r2inv := 1 / rsq
  let r6inv := r2inv * r2inv * r2inv
  let forcelj := r6inv * (s.lj1 itype jtype * r6inv - s.lj2 itype jtype)
  let fforce := factor_lj * forcelj * r2inv
  let philj := r6inv * (s.lj3 itype jtype * r6inv - s.lj4 itype jtype) - s.offset itype jtype
  (factor_lj * philj, fforce)

/-- The member function `born_matrix`: the values stored in `dupair` and `du2pair`. -/
def born_matrix {α : Type} [LinearOrderedField α] (m : MathOps α) (s : Pair α)
    (_i _j itype jtype : Nat) (rsq _factor_coul factor_lj : α) : α × α :=
  let r2inv := 1 / rsq
  let rinv := m.sqrt r2inv
  let r6inv := r2inv * r2inv * r2inv
  let du := r6inv * rinv * (s.lj2 itype jtype - s.lj1 itype jtype * r6inv)
  let du2 := r6inv * r2inv * (13 * s.lj1 itype jtype * r6inv - 7 * s.lj2 itype jtype)
  (factor_lj * du, factor_lj * du2)

/-- The outcome of a call of `init_one(i, j)` in the result type of the commands: the body
of `init_one` contains no call of `error->all` or `error->one`, so every call returns. -/
def init_one_call {α : Type} [LinearOrderedField α] (m : MathOps α) (h : Host α) (s : Pair α)
    (i j : Nat) : Except (Err × Pair α) (Pair α × α) :=
  .ok (init_one m h s i j)

/-- Every member that the double loop of `coeff` does not write is the same in `s` and
`acc`. -/
def CoeffOther {α : Type} (s acc : Pair α) : Prop :=
  acc.allocated = s.allocated ∧ acc.cutsq = s.cutsq ∧ acc.lj1 = s.lj1 ∧ acc.lj2 = s.lj2
    ∧ acc.lj3 = s.lj3 ∧ acc.lj4 = s.lj4 ∧ acc.offset = s.offset
    ∧ acc.cut_global = s.cut_global ∧ acc.offset_flag = s.offset_flag
    ∧ acc.mix_flag = s.mix_flag ∧ acc.tail_flag = s.tail_flag

/-- The pair `(a, b)` is visited by the double loop of `coeff`:
`ilo <= a <= ihi` and `MAX(jlo, a) <= b <= jhi`. -/
def InCoeffRange (ilo ihi jlo jhi a b : Nat) : Prop :=
  (ilo ≤ a ∧ a ≤ ihi) ∧ (max jlo a ≤ b ∧ b ≤ jhi)

/-- The example scenario with shifting requested and every cutoff equal to `0`. -/
def scenarioZeroCut (α : Type) [Field α] : Pair α :=
  { scenarioShift α with cut := fun _ _ => 0 }

/-- The example scenario with like-pair cutoffs `10` (type 1) and `20` (type 2), and only
the like pairs explicitly set. -/
def scenarioUnlike (α : Type) [Field α] : Pair α :=
  { scenario α with
    setflag := fun i j => if i = j then 1 else 0
    cut := fun i j => if i = 1 ∧ j = 1 then 10 else if i = 2 ∧ j = 2 then 20 else 0 }

/-- A neighbor list with the single pair `(0, 1)`. -/
def onePairList : NeighList :=
  { inum := 1, ilist := fun _ => 0, numneigh := fun _ => 1, firstneigh := fun _ _ => 1 }

/-- Modelled from the spec: the base-class `Pair::mix_distance` is not in this source
file; the specification describes the distance mixing of the host as the "arithmetic or
geometric mean" of the two like-pair values, and this is the arithmetic mean. -/
def mix_distance_arithmetic {α : Type} [Field α] (_mix_flag : Int) (a b : α) : α :=
  (a + b) / 2

/-- The stand-in host with the arithmetic-mean distance mixing of the specification. -/
def arithmeticHost (α : Type) [LinearOrderedField α] : Host α :=
  { demoHost α with mix_distance := mix_distance_arithmetic }

/-- The example scenario with `cutsq = 100` for every pair, after `init_one(1, 2)`: the
derived constants of the pair are `lj1 = 12000`, `lj2 = -300`, `lj3 = 1000`, `lj4 = -50`. -/
def scenarioReady {α : Type} [LinearOrderedField α] (m : MathOps α) : Pair α :=
  (init_one m (demoHost α) { scenario α with cutsq := fun _ _ => 100 } 1 2).1

/-- The two-term potential in the words of the specification:
`V(r) = c1 / r^n1 + c2 / r^n2 * cos (k * r + phi)`. -/
def specV {α : Type} [LinearOrderedField α] (m : MathOps α) (c1 n1 c2 n2 k phi : α) (r : α) : α :=
  c1 / m.pow r n1 + c2 / m.pow r n2 * m.cos (k * r + phi)

/-! ## Basic facts about tables and `init_one` -/

section Lemmas

variable {α : Type} [LinearOrderedField α]

theorem Table.set_same {β : Type} (t : Table β) (i j : Nat) (v : β) : t.set i j v i j = v := by
  simp [Table.set]

theorem Table.set_apply {β : Type} (t : Table β) (i j a b : Nat) (v : β) :
    t.set i j v a b = if a = i ∧ b = j then v else t a b := rfl

theorem init_one_lj1 (m : MathOps α) (h : Host α) (s : Pair α) (i j a b : Nat) :
    (init_one m h s i j).1.lj1 a b
      = if (a = i ∧ b = j) ∨ (a = j ∧ b = i) then s.n1 i j * s.c1 i j else s.lj1 a b := by
  simp only [init_one, init_one_mirror, init_one_offset, init_one_lj, init_one_mix,
    Table.set_apply]
  split_ifs <;> simp_all [Table.set_apply] <;> tauto

theorem init_one_lj2 (m : MathOps α) (h : Host α) (s : Pair α) (i j a b : Nat) :
    (init_one m h s i j).1.lj2 a b
      = if (a = i ∧ b = j) ∨ (a = j ∧ b = i) then s.n2 i j * s.c2 i j else s.lj2 a b := by
  simp only [init_one, init_one_mirror, init_one_offset, init_one_lj, init_one_mix,
    Table.set_apply]
  split_ifs <;> simp_all [Table.set_apply] <;> tauto

theorem init_one_lj3 (m : MathOps α) (h : Host α) (s : Pair α) (i j a b : Nat) :
    (init_one m h s i j).1.lj3 a b
      = if (a = i ∧ b = j) ∨ (a = j ∧ b = i) then s.c1 i j else s.lj3 a b := by
  simp only [init_one, init_one_mirror, init_one_offset, init_one_lj, init_one_mix,
    Table.set_apply]
  split_ifs <;> simp_all [Table.set_apply] <;> tauto

theorem init_one_lj4 (m : MathOps α) (h : Host α) (s : Pair α) (i j a b : Nat) :
    (init_one m h s i j).1.lj4 a b
      = if (a = i ∧ b = j) ∨ (a = j ∧ b = i) then s.c2 i j else s.lj4 a b := by
  simp only [init_one, init_one_mirror, init_one_offset, init_one_lj, init_one_mix,
    Table.set_apply]
  split_ifs <;> simp_all [Table.set_apply] <;> tauto

theorem init_one_offset_apply (m : MathOps α) (h : Host α) (s : Pair α) (i j a b : Nat) :
    (init_one m h s i j).1.offset a b
      = if (a = i ∧ b = j) ∨ (a = j ∧ b = i) then 0 else s.offset a b := by
  simp only [init_one, init_one_mirror, init_one_offset, init_one_lj, init_one_mix,
    Table.set_apply]
  split_ifs <;> simp_all [Table.set_apply] <;> tauto

theorem init_one_params (m : MathOps α) (h : Host α) (s : Pair α) (i j : Nat) :
    (init_one m h s i j).1.c1 = s.c1 ∧ (init_one m h s i j).1.c2 = s.c2
      ∧ (init_one m h s i j).1.n1 = s.n1 ∧ (init_one m h s i j).1.n2 = s.n2
      ∧ (init_one m h s i j).1.k = s.k ∧ (init_one m h s i j).1.p = s.p := by
  simp only [init_one, init_one_mirror, init_one_offset, init_one_lj, init_one_mix]
  split_ifs <;> simp

end Lemmas

/-! ## Loop invariants -/

/-- A property preserved by every step of a loop holds after the loop. -/
theorem foldl_preserves {σ ι : Type} (P : σ → Prop) (f : σ → ι → σ) (l : List ι)
    (hstep : ∀ acc x, x ∈ l → P acc → P (f acc x)) (init : σ) (h0 : P init) :
    P (l.foldl f init) := by
  induction l generalizing init with
  | nil => simpa using h0
  | cons y ys ih =>
    rw [List.foldl_cons]
    exact ih (fun acc x hx => hstep acc x (List.mem_cons_of_mem _ hx)) _
      (hstep init y (List.mem_cons_self _ _) h0)

/-- A property established by the step for `x` (under an invariant `I`) and preserved by
every step holds after a loop that visits `x`. -/
theorem foldl_establishes {σ ι : Type} (I Q : σ → Prop) (f : σ → ι → σ) (l : List ι) (x : ι)
    (hx : x ∈ l)
    (hI : ∀ acc y, y ∈ l → I acc → I (f acc y))
    (hest : ∀ acc, I acc → Q (f acc x))
    (hQ : ∀ acc y, y ∈ l → I acc → Q acc → Q (f acc y))
    (init : σ) (h0 : I init) : Q (l.foldl f init) := by
  induction l generalizing init with
  | nil => simp at hx
  | cons y ys ih =>
    rw [List.foldl_cons]
    have hIy : I (f init y) := hI init y (List.mem_cons_self _ _) h0
    rcases List.mem_cons.mp hx with rfl | hxs
    · have hq : Q (f init x) := hest init h0
      have hboth : I (ys.foldl f (f init x)) ∧ Q (ys.foldl f (f init x)) :=
        foldl_preserves (fun acc => I acc ∧ Q acc) f ys
          (fun acc z hz hacc =>
            ⟨hI acc z (List.mem_cons_of_mem _ hz) hacc.1,
             hQ acc z (List.mem_cons_of_mem _ hz) hacc.1 hacc.2⟩) _ ⟨hIy, hq⟩
      exact hboth.2
    · exact ih hxs (fun acc z hz => hI acc z (List.mem_cons_of_mem _ hz))
        (fun acc z hz => hQ acc z (List.mem_cons_of_mem _ hz)) _ hIy

theorem mem_forLoop_range (lo hi x : Nat) :
    x ∈ List.range' lo (hi + 1 - lo) ↔ lo ≤ x ∧ x ≤ hi := by
  rw [List.mem_range'_1]
  omega

/-! ## The double loop of `coeff` -/

theorem coeff_body_establishes {α : Type} (v : CoeffVals α) (i j : Nat) (st : Pair α × Int) :
    CoeffSet v (coeff_body v i st j).1 i j := by
  simp [CoeffSet, coeff_body, Table.set_apply]

theorem coeff_body_preserves {α : Type} (v : CoeffVals α) (i j a b : Nat) (st : Pair α × Int)
    (hst : CoeffSet v st.1 a b) : CoeffSet v (coeff_body v i st j).1 a b := by
  obtain ⟨h1, h2, h3, h4, h5, h6, h7, h8, h9, h10⟩ := hst
  simp only [CoeffSet, coeff_body, Table.set_apply]
  refine ⟨?_, ?_, ?_, ?_, ?_, ?_, ?_, ?_, ?_, ?_⟩ <;> split_ifs <;> simp_all

theorem coeff_body_count_nonneg {α : Type} (v : CoeffVals α) (i j : Nat) (st : Pair α × Int)
    (h0 : 0 ≤ st.2) : 0 ≤ (coeff_body v i st j).2 := by
  show 0 ≤ st.2 + 1
  omega

theorem coeff_body_count_pos {α : Type} (v : CoeffVals α) (i j : Nat) (st : Pair α × Int)
    (h0 : 0 ≤ st.2) : 0 < (coeff_body v i st j).2 := by
  show 0 < st.2 + 1
  omega

/-- The inner loop of `coeff` keeps the counter nonnegative. -/
theorem coeff_inner_nonneg {α : Type} (v : CoeffVals α) (jlo jhi i : Nat) (st : Pair α × Int)
    (h0 : 0 ≤ st.2) : 0 ≤ (forLoop (max jlo i) jhi (coeff_body v i) st).2 :=
  foldl_preserves (fun st => 0 ≤ st.2) (coeff_body v i)
    (List.range' (max jlo i) (jhi + 1 - max jlo i))
    (fun acc x _ hacc => coeff_body_count_nonneg v i x acc hacc) st h0

/-- The inner loop of `coeff` keeps a pair that already holds the parsed values, and a
positive counter. -/
theorem coeff_inner_preserves {α : Type} (v : CoeffVals α) (jlo jhi i a b : Nat)
    (st : Pair α × Int) (hq : CoeffSet v st.1 a b ∧ 0 < st.2) :
    CoeffSet v (forLoop (max jlo i) jhi (coeff_body v i) st).1 a b
      ∧ 0 < (forLoop (max jlo i) jhi (coeff_body v i) st).2 :=
  foldl_preserves (fun st => CoeffSet v st.1 a b ∧ 0 < st.2) (coeff_body v i)
    (List.range' (max jlo i) (jhi + 1 - max jlo i))
    (fun acc x _ hacc =>
      ⟨coeff_body_preserves v i x a b acc hacc.1,
       coeff_body_count_pos v i x acc (le_of_lt hacc.2)⟩) st hq

/-- The inner loop of `coeff` for `i` writes the parsed values at every `j` it visits. -/
theorem coeff_inner_establishes {α : Type} (v : CoeffVals α) (jlo jhi i j : Nat)
    (hj : max jlo i ≤ j ∧ j ≤ jhi) (st : Pair α × Int) (h0 : 0 ≤ st.2) :
    CoeffSet v (forLoop (max jlo i) jhi (coeff_body v i) st).1 i j
      ∧ 0 < (forLoop (max jlo i) jhi (coeff_body v i) st).2 :=
  foldl_establishes (fun st => 0 ≤ st.2) (fun st => CoeffSet v st.1 i j ∧ 0 < st.2)
    (coeff_body v i) (List.range' (max jlo i) (jhi + 1 - max jlo i)) j
    ((mem_forLoop_range _ _ _).mpr hj)
    (fun acc y _ hacc => coeff_body_count_nonneg v i y acc hacc)
    (fun acc hacc => ⟨coeff_body_establishes v i j acc, coeff_body_count_pos v i j acc hacc⟩)
    (fun acc y _ _ hacc =>
      ⟨coeff_body_preserves v i y i j acc hacc.1,
       coeff_body_count_pos v i y acc (le_of_lt hacc.2)⟩) st h0

/-- After the double loop of `coeff`, every pair in the range holds the parsed values and
the counter is positive. -/
theorem coeff_loops_in_range {α : Type} (v : CoeffVals α) (ilo ihi jlo jhi : Nat) (s : Pair α)
    (i j : Nat) (hi : ilo ≤ i ∧ i ≤ ihi) (hj : max jlo i ≤ j ∧ j ≤ jhi) :
    CoeffSet v (coeff_loops v ilo ihi jlo jhi s).1 i j
      ∧ 0 < (coeff_loops v ilo ihi jlo jhi s).2 :=
  foldl_establishes (fun st => 0 ≤ st.2) (fun st => CoeffSet v st.1 i j ∧ 0 < st.2)
    (fun st i => forLoop (max jlo i) jhi (coeff_body v i) st)
    (List.range' ilo (ihi + 1 - ilo)) i ((mem_forLoop_range _ _ _).mpr hi)
    (fun acc y _ hacc => coeff_inner_nonneg v jlo jhi y acc hacc)
    (fun acc hacc => coeff_inner_establishes v jlo jhi i j hj acc hacc)
    (fun acc y _ _ hacc => coeff_inner_preserves v jlo jhi y i j acc hacc) (s, 0) (le_refl _)


theorem coeff_body_frame {α : Type} (v : CoeffVals α) (s : Pair α) (i j a b : Nat)
    (st : Pair α × Int) (hne : ¬(a = i ∧ b = j)) (hst : CoeffSame s st.1 a b) :
    CoeffSame s (coeff_body v i st j).1 a b := by
  obtain ⟨h1, h2, h3, h4, h5, h6, h7, h8, h9, h10⟩ := hst
  simp only [CoeffSame, coeff_body, Table.set_apply, if_neg hne]
  exact ⟨h1, h2, h3, h4, h5, h6, h7, h8, h9, h10⟩

/-- The double loop of `coeff` leaves the ten tables unchanged at every pair outside the
range. -/
theorem coeff_loops_frame {α : Type} (v : CoeffVals α) (ilo ihi jlo jhi : Nat) (s : Pair α)
    (a b : Nat) (hout : ¬((ilo ≤ a ∧ a ≤ ihi) ∧ (max jlo a ≤ b ∧ b ≤ jhi))) :
    CoeffSame s (coeff_loops v ilo ihi jlo jhi s).1 a b :=
  foldl_preserves (fun st => CoeffSame s st.1 a b)
    (fun st i => forLoop (max jlo i) jhi (coeff_body v i) st)
    (List.range' ilo (ihi + 1 - ilo))
    (fun acc i hi hacc =>
      foldl_preserves (fun st => CoeffSame s st.1 a b) (coeff_body v i)
        (List.range' (max jlo i) (jhi + 1 - max jlo i))
        (fun acc2 j hj hacc2 =>
          coeff_body_frame v s i j a b acc2
            (fun hab => hout (by
              rw [hab.1, hab.2]
              exact ⟨(mem_forLoop_range _ _ _).mp hi, (mem_forLoop_range _ _ _).mp hj⟩))
            hacc2) acc hacc)
    (s, 0) ⟨rfl, rfl, rfl, rfl, rfl, rfl, rfl, rfl, rfl, rfl⟩

/-- A call of `coeff` with eleven arguments that parse, and a range that contains a pair,
returns normally with the state produced by its double loop. -/
theorem coeff_eq_ok {α : Type} [LinearOrderedField α] (h : Host α) (s : Pair α)
    (a0 a1 a2 a3 a4 a5 a6 a7 a8 a9 a10 : String) (ilo ihi jlo jhi : Nat) (v : CoeffVals α)
    (hb0 : h.bounds a0 1 h.ntypes = some (ilo, ihi))
    (hb1 : h.bounds a1 1 h.ntypes = some (jlo, jhi))
    (h2 : h.numeric a2 = some v.epsilon_one) (h3 : h.numeric a3 = some v.sigma_one)
    (h4 : h.numeric a4 = some v.cut_one) (h5 : h.numeric a5 = some v.c_one)
    (h6 : h.numeric a6 = some v.eta_one) (h7 : h.numeric a7 = some v.c_two)
    (h8 : h.numeric a8 = some v.eta_two) (h9 : h.numeric a9 = some v.k_star)
    (h10 : h.numeric a10 = some v.phi_star)
    (i j : Nat) (hi : ilo ≤ i ∧ i ≤ ihi) (hj : max jlo i ≤ j ∧ j ≤ jhi) :
    coeff h s [a0, a1, a2, a3, a4, a5, a6, a7, a8, a9, a10]
      = .ok (coeff_loops v ilo ihi jlo jhi (if s.allocated = 0 then allocate h s else s)).1 := by
  have hpos := (coeff_loops_in_range v ilo ihi jlo jhi
    (if s.allocated = 0 then allocate h s else s) i j hi hj).2
  have hne : (coeff_loops v ilo ihi jlo jhi
    (if s.allocated = 0 then allocate h s else s)).2 ≠ 0 := ne_of_gt hpos
  simp only [coeff, boundsArg, numericArg, getArg, List.get?, hb0, hb1, h2, h3, h4, h5, h6, h7,
    h8, h9, h10, List.length_cons, List.length_nil, bind, Except.bind, pure, Except.pure]
  simp [hne]

/-- The member function `allocate` changes no member other than `allocated` and
`setflag`. -/
theorem allocate_same {α : Type} [LinearOrderedField α] (h : Host α) (s : Pair α) :
    SameButSetflag s (allocate h s) :=
  foldl_preserves (fun acc => SameButSetflag s acc)
    (fun s i => forLoop i (h.ntypes + 1 - 1)
      (fun s j => { s with setflag := s.setflag.set i j 0 }) s)
    (List.range' 1 (h.ntypes + 1 - 1 + 1 - 1))
    (fun acc i _ hacc =>
      foldl_preserves (fun acc => SameButSetflag s acc)
        (fun s j => { s with setflag := s.setflag.set i j 0 })
        (List.range' i (h.ntypes + 1 - 1 + 1 - i))
        (fun _ _ _ hacc2 => hacc2) acc hacc)
    { s with allocated := 1 }
    ⟨rfl, rfl, rfl, rfl, rfl, rfl, rfl, rfl, rfl, rfl, rfl, rfl, rfl, rfl, rfl, rfl, rfl, rfl,
      rfl⟩

/-! ## The kernel is the negative radial derivative of the potential (over the reals) -/

/-- The derivative of the potential of the specification, with libm interpreted in the
real numbers, at a distance `r > 0`. -/
theorem specV_hasDerivAt (c1 n1 c2 n2 k phi r : ℝ) (hr : 0 < r) :
    HasDerivAt (specV ⟨Real.rpow, Real.cos, Real.sin, Real.sqrt⟩ c1 n1 c2 n2 k phi)
      (-(n1 * c1 * (1 / r ^ (n1 + 1)) + n2 * c2 * (1 / r ^ (n2 + 1)) * Real.cos (k * r + phi)
          + c2 * k * (1 / r ^ n2) * Real.sin (k * r + phi))) r := by
  have hr0 : r ≠ 0 := hr.ne'
  have hA : (0 : ℝ) < r ^ n1 := Real.rpow_pos_of_pos hr n1
  have hB : (0 : ℝ) < r ^ n2 := Real.rpow_pos_of_pos hr n2
  have h1 : HasDerivAt (fun x : ℝ => x ^ n1) (n1 * r ^ (n1 - 1)) r :=
    Real.hasDerivAt_rpow_const (Or.inl hr0)
  have h2 : HasDerivAt (fun x : ℝ => x ^ n2) (n2 * r ^ (n2 - 1)) r :=
    Real.hasDerivAt_rpow_const (Or.inl hr0)
  have hlin : HasDerivAt (fun x : ℝ => k * x + phi) (k * 1) r :=
    ((hasDerivAt_id r).const_mul k).add_const phi
  have hc : HasDerivAt (fun x : ℝ => Real.cos (k * x + phi))
      (-Real.sin (k * r + phi) * (k * 1)) r :=
    (Real.hasDerivAt_cos (k * r + phi)).comp r hlin
  have hT1 := (hasDerivAt_const r c1).div h1 hA.ne'
  have hT2 := ((hasDerivAt_const r c2).div h2 hB.ne').mul hc
  have hsum := hT1.add hT2
  have e1 : r ^ (n1 + 1) = r ^ n1 * r := Real.rpow_add_one hr0 n1
  have e2 : r ^ (n2 + 1) = r ^ n2 * r := Real.rpow_add_one hr0 n2
  have e3 : r ^ (n1 - 1) = r ^ n1 / r := Real.rpow_sub_one hr0 n1
  have e4 : r ^ (n2 - 1) = r ^ n2 / r := Real.rpow_sub_one hr0 n2
  convert hsum using 1
  rw [e1, e2, e3, e4]
  field_simp
  ring

/-- C1. For every stored parameter set `c1, n1, c2, n2, k, phi` of a type pair, every scaling
factor and every distance `r > 0`, the value `fpair` computed by `compute` from the
prefactors produced by `init_one` equals `factor * (-dV/dr)(r) / r`, where
`V(r) = c1 / r^n1 + c2 / r^n2 * cos (k * r + phi)`. -/
theorem fpair_eq_neg_deriv_div_r (h : Host ℝ) (s : Pair ℝ) (i j : Nat) (factor r : ℝ)
    (hr : 0 < r) :
    fpair ⟨Real.rpow, Real.cos, Real.sin, Real.sqrt⟩
        (init_one ⟨Real.rpow, Real.cos, Real.sin, Real.sqrt⟩ h s i j).1 i j r factor
      = factor * (-(deriv (specV ⟨Real.rpow, Real.cos, Real.sin, Real.sqrt⟩
          (s.c1 i j) (s.n1 i j) (s.c2 i j) (s.n2 i j) (s.k i j) (s.p i j)) r)) / r := by
  rw [(specV_hasDerivAt (s.c1 i j) (s.n1 i j) (s.c2 i j) (s.n2 i j) (s.k i j) (s.p i j) r
    hr).deriv]
  obtain ⟨-, -, hn1, hn2, hk, hp⟩ :=
    init_one_params ⟨Real.rpow, Real.cos, Real.sin, Real.sqrt⟩ h s i j
  simp only [fpair, forcelj, force1, force2, force3, init_one_lj1, init_one_lj2, init_one_lj4,
    hn1, hn2, hk, hp, true_and, and_self, true_or, if_true, Real.rpow_eq_pow]
  ring

/-- Witness for C1: the scenario with `k = 0.5` at distance `2`. -/
theorem fpair_eq_neg_deriv_div_r_witness :
    (0 : ℝ) < 2 ∧
    fpair ⟨Real.rpow, Real.cos, Real.sin, Real.sqrt⟩
        (init_one ⟨Real.rpow, Real.cos, Real.sin, Real.sqrt⟩ (demoHost ℝ) (scenarioOsc ℝ) 1 2).1
        1 2 2 1
      = 1 * (-(deriv (specV ⟨Real.rpow, Real.cos, Real.sin, Real.sqrt⟩
          ((scenarioOsc ℝ).c1 1 2) ((scenarioOsc ℝ).n1 1 2) ((scenarioOsc ℝ).c2 1 2)
          ((scenarioOsc ℝ).n2 1 2) ((scenarioOsc ℝ).k 1 2) ((scenarioOsc ℝ).p 1 2)) 2)) / 2 :=
  ⟨by norm_num, fpair_eq_neg_deriv_div_r (demoHost ℝ) (scenarioOsc ℝ) 1 2 1 2 (by norm_num)⟩

/-! ## Shifting, scaling and symmetry -/

theorem rpow_twelve (x : ℝ) : x ^ (12 : ℝ) = x ^ 12 := by
  exact_mod_cast Real.rpow_natCast x 12

theorem rpow_six (x : ℝ) : x ^ (6 : ℝ) = x ^ 6 := by
  exact_mod_cast Real.rpow_natCast x 6

/-- C2 (evaluation at the failing input). With shifting requested and cutoff `10 > 0` for
the scenario `c1 = 1000, n1 = 12, c2 = -50, n2 = 6, k = 0, phi = 0`, `init_one` returns the
cutoff `10`, stores the offset `0`, and the energy computed by `compute` at `r = 10` with
factor `1` is `1000 / 10^12 - 50 / 10^6`, which is not zero. -/
theorem shifted_energy_at_cutoff_ne_zero :
    (init_one ⟨Real.rpow, Real.cos, Real.sin, Real.sqrt⟩ (demoHost ℝ) (scenarioShift ℝ) 1 1).2
        = 10
    ∧ (init_one ⟨Real.rpow, Real.cos, Real.sin, Real.sqrt⟩ (demoHost ℝ)
        (scenarioShift ℝ) 1 1).1.offset 1 1 = 0
    ∧ evdwl ⟨Real.rpow, Real.cos, Real.sin, Real.sqrt⟩
        (init_one ⟨Real.rpow, Real.cos, Real.sin, Real.sqrt⟩ (demoHost ℝ)
          (scenarioShift ℝ) 1 1).1 1 1 10 1 = 1000 / 10 ^ 12 - 50 / 10 ^ 6
    ∧ evdwl ⟨Real.rpow, Real.cos, Real.sin, Real.sqrt⟩
        (init_one ⟨Real.rpow, Real.cos, Real.sin, Real.sqrt⟩ (demoHost ℝ)
          (scenarioShift ℝ) 1 1).1 1 1 10 1 ≠ 0 := by
  obtain ⟨-, -, hn1, hn2, hk, hp⟩ :=
    init_one_params ⟨Real.rpow, Real.cos, Real.sin, Real.sqrt⟩ (demoHost ℝ) (scenarioShift ℝ) 1 1
  have hE : evdwl ⟨Real.rpow, Real.cos, Real.sin, Real.sqrt⟩
      (init_one ⟨Real.rpow, Real.cos, Real.sin, Real.sqrt⟩ (demoHost ℝ)
        (scenarioShift ℝ) 1 1).1 1 1 10 1 = 1000 / 10 ^ 12 - 50 / 10 ^ 6 := by
    simp only [evdwl, init_one_lj3, init_one_lj4, init_one_offset_apply, hn1, hn2, hk, hp,
      and_self, true_or, if_true, Real.rpow_eq_pow]
    simp only [scenarioShift, scenario, blank, rpow_twelve, rpow_six]
    norm_num
  refine ⟨?_, ?_, hE, ?_⟩
  · simp [init_one, init_one_mirror, init_one_offset, init_one_lj, init_one_mix, scenarioShift,
      scenario, blank, Table.set_apply]
  · simp [init_one_offset_apply]
  · rw [hE]; norm_num

section Generic

variable {α : Type} [LinearOrderedField α]

/-- C3. The per-pair kernel of `compute` is linear in the scaling factor: `fpair` and
`evdwl` computed with factor `f` are `f` times the values computed with factor `1`; with
factor `0` both are `0`; with factor `1` they are the unscaled values
`forcelj * (1 / r)` and `lj3 / r^n1 + lj4 / r^n2 * cos (k r + p) - offset`. -/
theorem kernel_linear_in_factor (m : MathOps α) (s : Pair α) (itype jtype : Nat) (r f : α) :
    fpair m s itype jtype r f = f * fpair m s itype jtype r 1
    ∧ evdwl m s itype jtype r f = f * evdwl m s itype jtype r 1
    ∧ fpair m s itype jtype r 0 = 0
    ∧ evdwl m s itype jtype r 0 = 0
    ∧ fpair m s itype jtype r 1 = forcelj m s itype jtype r * (1 / r)
    ∧ evdwl m s itype jtype r 1
        = s.lj3 itype jtype * (1 / m.pow r (s.n1 itype jtype))
          + s.lj4 itype jtype * (1 / m.pow r (s.n2 itype jtype))
              * m.cos (s.k itype jtype * r + s.p itype jtype)
          - s.offset itype jtype := by
  refine ⟨?_, ?_, ?_, ?_, ?_, ?_⟩ <;> simp only [fpair, evdwl, mul_one, mul_zero] <;> ring

/-- C5. After `init_one(i, j)` the derived tables are symmetric at that pair, for every
`i`, `j` and every prior state: `lj1[j][i] = lj1[i][j]`, likewise `lj2`, `lj3`, `lj4` and
`offset`. -/
theorem init_one_symmetric (m : MathOps α) (h : Host α) (s : Pair α) (i j : Nat) :
    (init_one m h s i j).1.lj1 j i = (init_one m h s i j).1.lj1 i j
    ∧ (init_one m h s i j).1.lj2 j i = (init_one m h s i j).1.lj2 i j
    ∧ (init_one m h s i j).1.lj3 j i = (init_one m h s i j).1.lj3 i j
    ∧ (init_one m h s i j).1.lj4 j i = (init_one m h s i j).1.lj4 i j
    ∧ (init_one m h s i j).1.offset j i = (init_one m h s i j).1.offset i j := by
  simp [init_one_lj1, init_one_lj2, init_one_lj3, init_one_lj4, init_one_offset_apply]

end Generic

/-! ## The force update of one neighbor pair -/

section PairStep

variable {α : Type} [LinearOrderedField α]

/-- C7. A neighbor pair at or beyond the cutoff (`rsq >= cutsq[itype][jtype]`, equality
included) contributes nothing: the step of `compute` for that pair returns the state it
was given, so every force component is unchanged and no `ev_tally` call is recorded. -/
theorem compute_pair_beyond_cutoff (m : MathOps α) (h : Host α) (s : Pair α) (atom : Atom α)
    (force : Force α) (eflag evflag : Int) (i : Nat) (st : ComputeState α) (jraw : Nat)
    (hcut : s.cutsq (atom.type i) (atom.type (h.neighmask jraw))
      ≤ rsq atom i (h.neighmask jraw)) :
    compute_pair m h s atom force eflag evflag i st jraw = st
    ∧ (∀ a c, (compute_pair m h s atom force eflag evflag i st jraw).f a c = st.f a c)
    ∧ (compute_pair m h s atom force eflag evflag i st jraw).tallies = st.tallies := by
  have hst : compute_pair m h s atom force eflag evflag i st jraw = st := by
    simp only [compute_pair]
    rw [if_neg (not_lt.mpr hcut)]
  rw [hst]
  exact ⟨rfl, fun _ _ => rfl, rfl⟩

/-- Witness for C7: atoms at distance `3` (so `rsq = 9`) with `cutsq = 9` exactly. -/
theorem compute_pair_beyond_cutoff_witness :
    ({ scenario ℝ with cutsq := fun _ _ => 9 } : Pair ℝ).cutsq
        ((twoAtoms ℝ).type 0) ((twoAtoms ℝ).type ((demoHost ℝ).neighmask 1))
      ≤ rsq (twoAtoms ℝ) 0 ((demoHost ℝ).neighmask 1)
    ∧ (compute_pair ⟨Real.rpow, Real.cos, Real.sin, Real.sqrt⟩ (demoHost ℝ)
          { scenario ℝ with cutsq := fun _ _ => 9 } (twoAtoms ℝ) (plainForce ℝ) 1 1 0
          (zeroForces ℝ) 1 = zeroForces ℝ
      ∧ (∀ a c, (compute_pair ⟨Real.rpow, Real.cos, Real.sin, Real.sqrt⟩ (demoHost ℝ)
          { scenario ℝ with cutsq := fun _ _ => 9 } (twoAtoms ℝ) (plainForce ℝ) 1 1 0
          (zeroForces ℝ) 1).f a c = (zeroForces ℝ).f a c)
      ∧ (compute_pair ⟨Real.rpow, Real.cos, Real.sin, Real.sqrt⟩ (demoHost ℝ)
          { scenario ℝ with cutsq := fun _ _ => 9 } (twoAtoms ℝ) (plainForce ℝ) 1 1 0
          (zeroForces ℝ) 1).tallies = (zeroForces ℝ).tallies) :=
  ⟨by norm_num [rsq, del, twoAtoms, demoHost],
   compute_pair_beyond_cutoff ⟨Real.rpow, Real.cos, Real.sin, Real.sqrt⟩ (demoHost ℝ)
     { scenario ℝ with cutsq := fun _ _ => 9 } (twoAtoms ℝ) (plainForce ℝ) 1 1 0
     (zeroForces ℝ) 1 (by norm_num [rsq, del, twoAtoms, demoHost])⟩

/-- C8. For a neighbor pair inside the cutoff, with `j` the masked neighbor index and
`fpair` the kernel value at `r = sqrt(rsq)`, the step of `compute` adds
`(delx, dely, delz) * fpair` to `f[i]`; `f[j]` has that vector subtracted when
`newton_pair` is nonzero or `j < nlocal` and is unchanged otherwise; the force of every
other atom is unchanged. -/
theorem compute_pair_inside_cutoff (m : MathOps α) (h : Host α) (s : Pair α) (atom : Atom α)
    (force : Force α) (eflag evflag : Int) (i : Nat) (st : ComputeState α) (jraw : Nat)
    (hin : rsq atom i (h.neighmask jraw)
      < s.cutsq (atom.type i) (atom.type (h.neighmask jraw))) :
    (∀ c, c < 3 → (compute_pair m h s atom force eflag evflag i st jraw).f i c
        = st.f i c + del atom i (h.neighmask jraw) c
            * fpair m s (atom.type i) (atom.type (h.neighmask jraw))
                (m.sqrt (rsq atom i (h.neighmask jraw))) (force.special_lj (h.sbmask jraw)))
    ∧ (∀ c, c < 3 → (compute_pair m h s atom force eflag evflag i st jraw).f (h.neighmask jraw) c
        = if force.newton_pair ≠ 0 ∨ h.neighmask jraw < atom.nlocal then
            st.f (h.neighmask jraw) c - del atom i (h.neighmask jraw) c
              * fpair m s (atom.type i) (atom.type (h.neighmask jraw))
                  (m.sqrt (rsq atom i (h.neighmask jraw))) (force.special_lj (h.sbmask jraw))
          else st.f (h.neighmask jraw) c)
    ∧ (∀ a c, a ≠ i → a ≠ h.neighmask jraw →
        (compute_pair m h s atom force eflag evflag i st jraw).f a c = st.f a c) := by
  refine ⟨?_, ?_, ?_⟩
  · intro c hc
    simp only [compute_pair, if_pos hin]
    by_cases hij : h.neighmask jraw = i
    · have hd : ∀ c, del atom i i c = 0 := fun c => by simp [del]
      rw [hij]
      interval_cases c <;> split_ifs <;> simp [Table.set_apply, hd]
    · have hji : ¬ i = h.neighmask jraw := fun e => hij e.symm
      interval_cases c <;> split_ifs <;> simp [Table.set_apply, hji]
  · intro c hc
    simp only [compute_pair, if_pos hin]
    by_cases hij : h.neighmask jraw = i
    · have hd : ∀ c, del atom i i c = 0 := fun c => by simp [del]
      rw [hij]
      interval_cases c <;> split_ifs <;> simp [Table.set_apply, hd]
    · interval_cases c <;> split_ifs <;> simp [Table.set_apply, hij]
  · intro a c hai haj
    simp only [compute_pair, if_pos hin]
    split_ifs <;> simp [Table.set_apply, hai, haj]

/-- Witness for C8: atoms of types 1 and 2 at distance `3` with `cutsq = 100`, after
`init_one(1, 2)` on the scenario.  The kernel value is `fpair = -68900/1594323`, the
displacement is `(-3, 0, 0)`, and the step changes the x components of the two forces from
`0` to `68900/531441` and `-68900/531441`; the y component and a third atom stay at `0`. -/
theorem compute_pair_inside_cutoff_witness :
    rsq (twoAtoms ℝ) 0 ((demoHost ℝ).neighmask 1)
      < (scenarioReady ⟨Real.rpow, Real.cos, Real.sin, Real.sqrt⟩).cutsq
          ((twoAtoms ℝ).type 0) ((twoAtoms ℝ).type ((demoHost ℝ).neighmask 1))
    ∧ fpair ⟨Real.rpow, Real.cos, Real.sin, Real.sqrt⟩
        (scenarioReady ⟨Real.rpow, Real.cos, Real.sin, Real.sqrt⟩) 1 2 3 1
        = -68900 / 1594323
    ∧ (compute_pair ⟨Real.rpow, Real.cos, Real.sin, Real.sqrt⟩ (demoHost ℝ)
        (scenarioReady ⟨Real.rpow, Real.cos, Real.sin, Real.sqrt⟩) (twoAtoms ℝ) (plainForce ℝ)
        1 1 0 (zeroForces ℝ) 1).f 0 0 = 68900 / 531441
    ∧ (compute_pair ⟨Real.rpow, Real.cos, Real.sin, Real.sqrt⟩ (demoHost ℝ)
        (scenarioReady ⟨Real.rpow, Real.cos, Real.sin, Real.sqrt⟩) (twoAtoms ℝ) (plainForce ℝ)
        1 1 0 (zeroForces ℝ) 1).f 1 0 = -68900 / 531441
    ∧ (compute_pair ⟨Real.rpow, Real.cos, Real.sin, Real.sqrt⟩ (demoHost ℝ)
        (scenarioReady ⟨Real.rpow, Real.cos, Real.sin, Real.sqrt⟩) (twoAtoms ℝ) (plainForce ℝ)
        1 1 0 (zeroForces ℝ) 1).f 0 1 = 0
    ∧ (compute_pair ⟨Real.rpow, Real.cos, Real.sin, Real.sqrt⟩ (demoHost ℝ)
        (scenarioReady ⟨Real.rpow, Real.cos, Real.sin, Real.sqrt⟩) (twoAtoms ℝ) (plainForce ℝ)
        1 1 0 (zeroForces ℝ) 1).f 2 0 = 0 := by
  have hnm : (demoHost ℝ).neighmask 1 = 1 := by simp [demoHost]
  have hcs : ∀ a b, (scenarioReady ⟨Real.rpow, Real.cos, Real.sin, Real.sqrt⟩ : Pair ℝ).cutsq a b
      = 100 := by
    intro a b
    simp only [scenarioReady, init_one, init_one_mirror, init_one_offset, init_one_lj,
      init_one_mix]
    split_ifs <;> rfl
  have hrsq : rsq (twoAtoms ℝ) 0 1 = 3 ^ 2 := by
    norm_num [rsq, del, twoAtoms]
  have hin : rsq (twoAtoms ℝ) 0 ((demoHost ℝ).neighmask 1)
      < (scenarioReady ⟨Real.rpow, Real.cos, Real.sin, Real.sqrt⟩).cutsq
          ((twoAtoms ℝ).type 0) ((twoAtoms ℝ).type ((demoHost ℝ).neighmask 1)) := by
    rw [hcs, hnm, hrsq]
    norm_num
  have hsqrt : Real.sqrt (rsq (twoAtoms ℝ) 0 1) = 3 := by
    rw [hrsq]
    exact Real.sqrt_sq (by norm_num)
  obtain ⟨-, -, hn1, hn2, hk, hp⟩ :=
    init_one_params ⟨Real.rpow, Real.cos, Real.sin, Real.sqrt⟩ (demoHost ℝ)
      { scenario ℝ with cutsq := fun _ _ => 100 } 1 2
  have hfp : fpair ⟨Real.rpow, Real.cos, Real.sin, Real.sqrt⟩
      (scenarioReady ⟨Real.rpow, Real.cos, Real.sin, Real.sqrt⟩) 1 2 3 1
      = -68900 / 1594323 := by
    simp only [scenarioReady, fpair, forcelj, force1, force2, force3, init_one_lj1,
      init_one_lj2, init_one_lj4, hn1, hn2, hk, hp, and_self, true_or, if_true,
      Real.rpow_eq_pow]
    simp only [scenario, blank]
    rw [show (12 : ℝ) + 1 = ((13 : ℕ) : ℝ) by norm_num,
      show (6 : ℝ) + 1 = ((7 : ℕ) : ℝ) by norm_num, Real.rpow_natCast, Real.rpow_natCast,
      rpow_six]
    norm_num
  obtain ⟨h1, h2, h3⟩ := compute_pair_inside_cutoff ⟨Real.rpow, Real.cos, Real.sin, Real.sqrt⟩
    (demoHost ℝ) (scenarioReady ⟨Real.rpow, Real.cos, Real.sin, Real.sqrt⟩) (twoAtoms ℝ)
    (plainForce ℝ) 1 1 0 (zeroForces ℝ) 1 hin
  have ht0 : (twoAtoms ℝ).type 0 = 1 := rfl
  have ht1 : (twoAtoms ℝ).type 1 = 2 := rfl
  have hsl : (plainForce ℝ).special_lj ((demoHost ℝ).sbmask 1) = 1 := rfl
  have e00 := h1 0 (by norm_num)
  have e01 := h1 1 (by norm_num)
  have e10 := h2 0 (by norm_num)
  have e20 := h3 2 0 (by norm_num) (by rw [hnm]; norm_num)
  simp only [hnm, hsqrt, ht0, ht1, hsl, hfp] at e00 e01 e10
  refine ⟨hin, hfp, ?_, ?_, ?_, ?_⟩
  · rw [e00]
    norm_num [zeroForces, del, twoAtoms]
  · rw [e10]
    norm_num [zeroForces, del, twoAtoms, plainForce]
  · rw [e01]
    norm_num [zeroForces, del, twoAtoms]
  · rw [e20]
    rfl

end PairStep

/-! ## The double power law and the lookup order -/

/-- C4. With `k = 0` and `phi = 0` the kernel is a pure double power law: after `coeff`
has configured a range containing `(i, j)` with `c1, n1, c2, n2` and `init_one(i, j)` has
run with shifting disabled, the pair energy of `compute` at `r > 0` is
`factor * (c1 / r^n1 + c2 / r^n2)` and `fpair` is
`factor * (n1 * c1 / r^(n1+1) + n2 * c2 / r^(n2+1)) / r`. -/
theorem double_power_law (h : Host ℝ) (s : Pair ℝ)
    (a0 a1 a2 a3 a4 a5 a6 a7 a8 a9 a10 : String) (ilo ihi jlo jhi : Nat)
    (eps sig cut c1 n1 c2 n2 : ℝ)
    (hb0 : h.bounds a0 1 h.ntypes = some (ilo, ihi))
    (hb1 : h.bounds a1 1 h.ntypes = some (jlo, jhi))
    (h2 : h.numeric a2 = some eps) (h3 : h.numeric a3 = some sig)
    (h4 : h.numeric a4 = some cut) (h5 : h.numeric a5 = some c1)
    (h6 : h.numeric a6 = some n1) (h7 : h.numeric a7 = some c2)
    (h8 : h.numeric a8 = some n2) (h9 : h.numeric a9 = some 0)
    (h10 : h.numeric a10 = some 0)
    (i j : Nat) (hi : ilo ≤ i ∧ i ≤ ihi) (hj : max jlo i ≤ j ∧ j ≤ jhi)
    (_hoff : s.offset_flag = 0) (factor r : ℝ) (_hr : 0 < r) :
    ∃ s1, coeff h s [a0, a1, a2, a3, a4, a5, a6, a7, a8, a9, a10] = .ok s1
      ∧ evdwl ⟨Real.rpow, Real.cos, Real.sin, Real.sqrt⟩
          (init_one ⟨Real.rpow, Real.cos, Real.sin, Real.sqrt⟩ h s1 i j).1 i j r factor
        = factor * (c1 / r ^ n1 + c2 / r ^ n2)
      ∧ fpair ⟨Real.rpow, Real.cos, Real.sin, Real.sqrt⟩
          (init_one ⟨Real.rpow, Real.cos, Real.sin, Real.sqrt⟩ h s1 i j).1 i j r factor
        = factor * (n1 * c1 / r ^ (n1 + 1) + n2 * c2 / r ^ (n2 + 1)) / r := by
  refine ⟨_, coeff_eq_ok h s a0 a1 a2 a3 a4 a5 a6 a7 a8 a9 a10 ilo ihi jlo jhi
    ⟨eps, sig, cut, c1, n1, c2, n2, 0, 0⟩ hb0 hb1 h2 h3 h4 h5 h6 h7 h8 h9 h10 i j hi hj, ?_, ?_⟩
  · obtain ⟨-, -, -, -, e1, e2, e3, e4, e5, e6⟩ :=
      (coeff_loops_in_range ⟨eps, sig, cut, c1, n1, c2, n2, 0, 0⟩ ilo ihi jlo jhi
        (if s.allocated = 0 then allocate h s else s) i j hi hj).1
    obtain ⟨-, -, hn1, hn2, hk, hp⟩ :=
      init_one_params ⟨Real.rpow, Real.cos, Real.sin, Real.sqrt⟩ h
        (coeff_loops ⟨eps, sig, cut, c1, n1, c2, n2, 0, 0⟩ ilo ihi jlo jhi
          (if s.allocated = 0 then allocate h s else s)).1 i j
    simp only [evdwl, init_one_lj3, init_one_lj4, init_one_offset_apply, hn1, hn2, hk, hp,
      and_self, true_or, if_true, Real.rpow_eq_pow, e1, e2, e3, e4, e5, e6]
    simp
    ring
  · obtain ⟨-, -, -, -, e1, e2, e3, e4, e5, e6⟩ :=
      (coeff_loops_in_range ⟨eps, sig, cut, c1, n1, c2, n2, 0, 0⟩ ilo ihi jlo jhi
        (if s.allocated = 0 then allocate h s else s) i j hi hj).1
    obtain ⟨-, -, hn1, hn2, hk, hp⟩ :=
      init_one_params ⟨Real.rpow, Real.cos, Real.sin, Real.sqrt⟩ h
        (coeff_loops ⟨eps, sig, cut, c1, n1, c2, n2, 0, 0⟩ ilo ihi jlo jhi
          (if s.allocated = 0 then allocate h s else s)).1 i j
    simp only [fpair, forcelj, force1, force2, force3, init_one_lj1, init_one_lj2,
      init_one_lj4, hn1, hn2, hk, hp, and_self, true_or, if_true, Real.rpow_eq_pow,
      e1, e2, e3, e4, e5, e6]
    simp
    ring

/-- Witness for C4: `pair_coeff 1 2 0 0 10 1000 12 -50 6 0 0` on a blank instance, then
`init_one(1, 2)`; at `r = 2` with factor `1` the energy is `-275/512 = -0.537109375`. -/
theorem double_power_law_witness :
    (0 : ℝ) < 2 ∧
    ∃ s1, coeff (demoHost ℝ) (blank ℝ)
        ["1", "2", "0", "0", "10", "1000", "12", "-50", "6", "0", "0"] = .ok s1
      ∧ evdwl ⟨Real.rpow, Real.cos, Real.sin, Real.sqrt⟩
          (init_one ⟨Real.rpow, Real.cos, Real.sin, Real.sqrt⟩ (demoHost ℝ) s1 1 2).1 1 2 2 1
        = -275 / 512
      ∧ fpair ⟨Real.rpow, Real.cos, Real.sin, Real.sqrt⟩
          (init_one ⟨Real.rpow, Real.cos, Real.sin, Real.sqrt⟩ (demoHost ℝ) s1 1 2).1 1 2 2 1
        = -225 / 512 := by
  obtain ⟨s1, hs1, hE, hF⟩ := double_power_law (demoHost ℝ) (blank ℝ)
    "1" "2" "0" "0" "10" "1000" "12" "-50" "6" "0" "0" 1 1 2 2 0 0 10 1000 12 (-50) 6
    (by simp [demoHost, demoBounds, natOfChars]) (by simp [demoHost, demoBounds, natOfChars])
    (by simp [demoHost, demoNumeric, natOfChars]) (by simp [demoHost, demoNumeric, natOfChars])
    (by simp [demoHost, demoNumeric, natOfChars]) (by simp [demoHost, demoNumeric, natOfChars])
    (by simp [demoHost, demoNumeric, natOfChars]) (by simp [demoHost, demoNumeric, natOfChars])
    (by simp [demoHost, demoNumeric, natOfChars]) (by simp [demoHost, demoNumeric, natOfChars])
    (by simp [demoHost, demoNumeric, natOfChars])
    1 2 (by omega) (by simp) rfl 1 2 (by norm_num)
  refine ⟨by norm_num, s1, hs1, ?_, ?_⟩
  · rw [hE, rpow_twelve, rpow_six]; norm_num
  · rw [hF, show (12 : ℝ) + 1 = ((13 : ℕ) : ℝ) by norm_num,
      show (6 : ℝ) + 1 = ((7 : ℕ) : ℝ) by norm_num, Real.rpow_natCast, Real.rpow_natCast]
    norm_num

/-- C6 (evaluation at the failing input). On a blank instance,
`pair_coeff 1 2 0 0 10 1000 12 -50 6 0 0` followed by `init_one(1, 2)` mirrors `lj1`
and `lj3` to `(2, 1)` but leaves `n1[2][1] = 0` while `n1[1][2] = 12`; at `r = 2` with
factor `1` the energy of `compute` is `-275/512` for the type order `(1, 2)` and `950` for
the type order `(2, 1)`. -/
theorem lookup_order_not_symmetric :
    ∃ s1, coeff (demoHost ℝ) (blank ℝ)
        ["1", "2", "0", "0", "10", "1000", "12", "-50", "6", "0", "0"] = .ok s1
      ∧ (init_one ⟨Real.rpow, Real.cos, Real.sin, Real.sqrt⟩ (demoHost ℝ) s1 1 2).1.lj3 2 1
          = (init_one ⟨Real.rpow, Real.cos, Real.sin, Real.sqrt⟩ (demoHost ℝ) s1 1 2).1.lj3 1 2
      ∧ (init_one ⟨Real.rpow, Real.cos, Real.sin, Real.sqrt⟩ (demoHost ℝ) s1 1 2).1.n1 1 2 = 12
      ∧ (init_one ⟨Real.rpow, Real.cos, Real.sin, Real.sqrt⟩ (demoHost ℝ) s1 1 2).1.n1 2 1 = 0
      ∧ evdwl ⟨Real.rpow, Real.cos, Real.sin, Real.sqrt⟩
          (init_one ⟨Real.rpow, Real.cos, Real.sin, Real.sqrt⟩ (demoHost ℝ) s1 1 2).1 1 2 2 1
        = -275 / 512
      ∧ evdwl ⟨Real.rpow, Real.cos, Real.sin, Real.sqrt⟩
          (init_one ⟨Real.rpow, Real.cos, Real.sin, Real.sqrt⟩ (demoHost ℝ) s1 1 2).1 2 1 2 1
        = 950 := by
  have hok := coeff_eq_ok (demoHost ℝ) (blank ℝ)
    "1" "2" "0" "0" "10" "1000" "12" "-50" "6" "0" "0" 1 1 2 2
    ⟨0, 0, 10, 1000, 12, -50, 6, 0, 0⟩
    (by simp [demoHost, demoBounds, natOfChars]) (by simp [demoHost, demoBounds, natOfChars])
    (by simp [demoHost, demoNumeric, natOfChars]) (by simp [demoHost, demoNumeric, natOfChars])
    (by simp [demoHost, demoNumeric, natOfChars]) (by simp [demoHost, demoNumeric, natOfChars])
    (by simp [demoHost, demoNumeric, natOfChars]) (by simp [demoHost, demoNumeric, natOfChars])
    (by simp [demoHost, demoNumeric, natOfChars]) (by simp [demoHost, demoNumeric, natOfChars])
    (by simp [demoHost, demoNumeric, natOfChars])
    1 2 (by omega) (by simp)
  obtain ⟨-, -, -, -, e1, e2, e3, e4, e5, e6⟩ :=
    (coeff_loops_in_range (⟨0, 0, 10, 1000, 12, -50, 6, 0, 0⟩ : CoeffVals ℝ) 1 1 2 2
      (if (blank ℝ).allocated = 0 then allocate (demoHost ℝ) (blank ℝ) else blank ℝ) 1 2
      (by omega) (by simp)).1
  obtain ⟨-, -, -, -, -, -, g3, g4, g5, g6⟩ :=
    coeff_loops_frame (⟨0, 0, 10, 1000, 12, -50, 6, 0, 0⟩ : CoeffVals ℝ) 1 1 2 2
      (if (blank ℝ).allocated = 0 then allocate (demoHost ℝ) (blank ℝ) else blank ℝ) 2 1
      (by omega)
  obtain ⟨-, -, -, -, -, -, -, -, -, -, -, a3, a4, a5, a6, -⟩ :=
    allocate_same (demoHost ℝ) (blank ℝ)
  have hb : (blank ℝ).allocated = 0 := rfl
  rw [if_pos hb] at e1 e2 e3 e4 e5 e6 g3 g4 g5 g6 hok
  rw [a3, show (blank ℝ).n1 2 1 = 0 from rfl] at g3
  rw [a4, show (blank ℝ).n2 2 1 = 0 from rfl] at g4
  rw [a5, show (blank ℝ).k 2 1 = 0 from rfl] at g5
  rw [a6, show (blank ℝ).p 2 1 = 0 from rfl] at g6
  obtain ⟨-, -, hn1, hn2, hk, hp⟩ :=
    init_one_params ⟨Real.rpow, Real.cos, Real.sin, Real.sqrt⟩ (demoHost ℝ)
      (coeff_loops (⟨0, 0, 10, 1000, 12, -50, 6, 0, 0⟩ : CoeffVals ℝ) 1 1 2 2
        (allocate (demoHost ℝ) (blank ℝ))).1 1 2
  refine ⟨_, hok, ?_, ?_, ?_, ?_, ?_⟩
  · simp [init_one_lj3]
  · rw [hn1, e3]
  · rw [hn1, g3]
  · simp only [evdwl, init_one_lj3, init_one_lj4, init_one_offset_apply, hn1, hn2, hk, hp,
      and_self, true_or, if_true, Real.rpow_eq_pow, e1, e2, e3, e4, e5, e6, rpow_twelve,
      rpow_six]
    norm_num
  · simp only [evdwl, init_one_lj3, init_one_lj4, init_one_offset_apply, hn1, hn2, hk, hp,
      and_self, or_true, if_true, Real.rpow_eq_pow, e1, e2, g3, g4, g5, g6]
    norm_num

/-! ## Restart files -/

/-- A writer that only appends can be run on the empty file and its output appended. -/
theorem foldl_append_file {ι β : Type} (wf : List β → ι → List β) (l : List ι)
    (happ : ∀ fp x, x ∈ l → wf fp x = fp ++ wf [] x) (fp : List β) :
    l.foldl wf fp = fp ++ l.foldl wf [] := by
  induction l generalizing fp with
  | nil => simp
  | cons x xs ih =>
    have hxs : ∀ fp y, y ∈ xs → wf fp y = fp ++ wf [] y :=
      fun fp y hy => happ fp y (List.mem_cons_of_mem _ hy)
    rw [List.foldl_cons, List.foldl_cons, ih hxs (wf fp x), ih hxs (wf [] x),
      happ fp x (List.mem_cons_self _ _), List.append_assoc]

/-- Reading back, item by item, what a loop of appending writers wrote. -/
theorem foldlM_read_back {σ ι β ε : Type} (wf : List β → ι → List β)
    (rd : σ × List β → ι → Except ε (σ × List β)) (g : σ → ι → σ) (l : List ι)
    (happ : ∀ fp x, x ∈ l → wf fp x = fp ++ wf [] x)
    (hrd : ∀ acc x rest, x ∈ l → rd (acc, wf [] x ++ rest) x = .ok (g acc x, rest))
    (acc : σ) (rest : List β) :
    l.foldlM rd (acc, l.foldl wf [] ++ rest) = .ok (l.foldl g acc, rest) := by
  induction l generalizing acc with
  | nil => rfl
  | cons x xs ih =>
    have hxs : ∀ fp y, y ∈ xs → wf fp y = fp ++ wf [] y :=
      fun fp y hy => happ fp y (List.mem_cons_of_mem _ hy)
    rw [List.foldlM_cons, List.foldl_cons, List.foldl_cons, foldl_append_file wf xs hxs (wf [] x),
      List.append_assoc, hrd acc x _ (List.mem_cons_self _ _)]
    exact ih hxs (fun acc y rest hy => hrd acc y rest (List.mem_cons_of_mem _ hy)) (g acc x)

theorem write_restart_pair_append {α : Type} (s : Pair α) (i : Nat) (fp : List (Rec α)) (j : Nat) :
    write_restart_pair s i fp j = fp ++ write_restart_pair s i [] j := by
  simp only [write_restart_pair, fwrite_int, fwrite_dbl]
  split_ifs <;> simp

theorem read_restart_pair_back {α : Type} (s : Pair α) (i j : Nat) (acc : Pair α)
    (rest : List (Rec α)) :
    read_restart_pair i (acc, write_restart_pair s i [] j ++ rest) j
      = .ok (restore_pair s i acc j, rest) := by
  by_cases hs : s.setflag i j = 0
  · simp [read_restart_pair, write_restart_pair, restore_pair, fwrite_int, fwrite_dbl,
      sfread_int, sfread_dbl, bind, Except.bind, pure, Except.pure, Table.set_same, hs]
  · simp [read_restart_pair, write_restart_pair, restore_pair, fwrite_int, fwrite_dbl,
      sfread_int, sfread_dbl, bind, Except.bind, pure, Except.pure, Table.set_same, hs]

theorem read_restart_settings_back {α : Type} (s s0 : Pair α) (rest : List (Rec α)) :
    read_restart_settings s0 (write_restart_settings s [] ++ rest)
      = .ok (restore_settings s s0, rest) := by
  simp [read_restart_settings, write_restart_settings, restore_settings, fwrite_int,
    fwrite_dbl, sfread_int, sfread_dbl, bind, Except.bind, pure, Except.pure]

/-- Reading back what `write_restart` wrote, into any instance `s0`, succeeds, yields
`restore h s s0`, and leaves exactly the records that follow. -/
theorem read_write_restart {α : Type} [LinearOrderedField α] (h : Host α) (s s0 : Pair α) (rest : List (Rec α)) :
    read_restart h s0 (write_restart h s [] ++ rest) = .ok (restore h s s0, rest) := by
  have hinner_app : ∀ (i : Nat) (fp : List (Rec α)),
      forLoop i h.ntypes (write_restart_pair s i) fp
        = fp ++ forLoop i h.ntypes (write_restart_pair s i) [] := fun i fp =>
    foldl_append_file (write_restart_pair s i) _
      (fun fp x _ => write_restart_pair_append s i fp x) fp
  have hinner_rd : ∀ (i : Nat) (acc : Pair α) (rest : List (Rec α)),
      forLoopM i h.ntypes (read_restart_pair i)
          (acc, forLoop i h.ntypes (write_restart_pair s i) [] ++ rest)
        = .ok (forLoop i h.ntypes (restore_pair s i) acc, rest) := fun i acc rest =>
    foldlM_read_back (write_restart_pair s i) (read_restart_pair i) (restore_pair s i) _
      (fun fp x _ => write_restart_pair_append s i fp x)
      (fun acc x rest _ => read_restart_pair_back s i x acc rest) acc rest
  have houter := foldlM_read_back
    (fun fp i => forLoop i h.ntypes (write_restart_pair s i) fp)
    (fun st i => forLoopM i h.ntypes (read_restart_pair i) st)
    (fun acc i => forLoop i h.ntypes (restore_pair s i) acc)
    (List.range' 1 (h.ntypes + 1 - 1))
    (fun fp i _ => hinner_app i fp)
    (fun acc i rest _ => hinner_rd i acc rest)
    (allocate h (restore_settings s s0)) rest
  have hw : write_restart h s [] = write_restart_settings s []
      ++ forLoop 1 h.ntypes (fun fp i => forLoop i h.ntypes (write_restart_pair s i) fp) [] :=
    foldl_append_file (fun fp i => forLoop i h.ntypes (write_restart_pair s i) fp) _
      (fun fp i _ => hinner_app i fp) (write_restart_settings s [])
  rw [hw, List.append_assoc]
  simp only [read_restart, read_restart_settings_back, bind, Except.bind]
  exact houter

theorem restore_pair_agree_self {α : Type} (s acc : Pair α) (i j : Nat) :
    Agree s (restore_pair s i acc j) i j := by
  by_cases hs : s.setflag i j = 0 <;> simp [Agree, restore_pair, Table.set_apply, hs]

theorem restore_pair_agree_preserves {α : Type} (s acc : Pair α) (i j a b : Nat)
    (hacc : Agree s acc a b) : Agree s (restore_pair s i acc j) a b := by
  by_cases hab : a = i ∧ b = j
  · rw [hab.1, hab.2]
    exact restore_pair_agree_self s acc i j
  · obtain ⟨h1, h2⟩ := hacc
    by_cases hs : s.setflag i j = 0
    · simpa [Agree, restore_pair, Table.set_apply, hs, hab] using ⟨h1, h2⟩
    · simpa [Agree, restore_pair, Table.set_apply, hs, hab] using ⟨h1, h2⟩

theorem restore_pair_frame {α : Type} (s x acc : Pair α) (i j : Nat)
    (hacc : SameNotPersisted x acc) : SameNotPersisted x (restore_pair s i acc j) := by
  by_cases hs : s.setflag i j = 0
  · simpa [SameNotPersisted, restore_pair, hs] using hacc
  · simpa [SameNotPersisted, restore_pair, hs] using hacc

/-- After the restore, every pair `1 <= i <= j <= ntypes` agrees with the saved instance. -/
theorem restore_agree {α : Type} [LinearOrderedField α] (h : Host α) (s s0 : Pair α)
    (i j : Nat) (hi : 1 ≤ i) (hij : i ≤ j) (hj : j ≤ h.ntypes) :
    Agree s (restore h s s0) i j :=
  foldl_establishes (fun _ => True) (fun acc => Agree s acc i j)
    (fun acc i => forLoop i h.ntypes (restore_pair s i) acc)
    (List.range' 1 (h.ntypes + 1 - 1)) i
    ((mem_forLoop_range _ _ _).mpr ⟨hi, le_trans hij hj⟩)
    (fun _ _ _ _ => trivial)
    (fun acc _ =>
      foldl_establishes (fun _ => True) (fun acc => Agree s acc i j) (restore_pair s i)
        (List.range' i (h.ntypes + 1 - i)) j ((mem_forLoop_range _ _ _).mpr ⟨hij, hj⟩)
        (fun _ _ _ _ => trivial)
        (fun acc _ => restore_pair_agree_self s acc i j)
        (fun acc y _ _ hacc => restore_pair_agree_preserves s acc i y i j hacc) acc trivial)
    (fun acc y _ _ hacc =>
      foldl_preserves (fun acc => Agree s acc i j) (restore_pair s y)
        (List.range' y (h.ntypes + 1 - y))
        (fun acc z _ hacc => restore_pair_agree_preserves s acc y z i j hacc) acc hacc)
    (allocate h (restore_settings s s0)) trivial

/-- The restore takes the settings from the saved instance and every table that is not
persisted from the instance read into. -/
theorem restore_frame {α : Type} [LinearOrderedField α] (h : Host α) (s s0 : Pair α) :
    SameNotPersisted (restore_settings s s0) (restore h s s0) := by
  have h0 : SameNotPersisted (restore_settings s s0) (allocate h (restore_settings s s0)) := by
    obtain ⟨a1, -, -, -, a5, a6, a7, a8, a9, a10, a11, a12, a13, a14, a15, a16, a17, a18, a19⟩ :=
      allocate_same h (restore_settings s s0)
    exact ⟨a1, a5, a6, a7, a8, a9, a10, a11, a12, a13, a14, a15, a16, a17, a18, a19⟩
  exact foldl_preserves (fun acc => SameNotPersisted (restore_settings s s0) acc)
    (fun acc i => forLoop i h.ntypes (restore_pair s i) acc)
    (List.range' 1 (h.ntypes + 1 - 1))
    (fun acc y _ hacc =>
      foldl_preserves (fun acc => SameNotPersisted (restore_settings s s0) acc)
        (restore_pair s y) (List.range' y (h.ntypes + 1 - y))
        (fun acc z _ hacc => restore_pair_frame s _ acc y z hacc) acc hacc)
    (allocate h (restore_settings s s0)) h0

/-- C9. Restart round trip: for every number of types, every saved instance `s` and every
instance `s0` read into, `read_restart` applied to the records produced by
`write_restart` (followed by any further records `rest`) succeeds, consumes exactly the
records written, and yields the same `cut_global`, `offset_flag`, `mix_flag` and
`tail_flag`, the same `setflag[i][j]` for `1 <= i <= j <= ntypes`, and the same
`epsilon[i][j]`, `sigma[i][j]`, `cut[i][j]` wherever that `setflag` is nonzero. -/
theorem restart_round_trip {α : Type} [LinearOrderedField α] (h : Host α) (s s0 : Pair α)
    (rest : List (Rec α)) :
    ∃ s1, read_restart h s0 (write_restart h s [] ++ rest) = .ok (s1, rest)
      ∧ s1.cut_global = s.cut_global ∧ s1.offset_flag = s.offset_flag
      ∧ s1.mix_flag = s.mix_flag ∧ s1.tail_flag = s.tail_flag
      ∧ ∀ i j, 1 ≤ i → i ≤ j → j ≤ h.ntypes →
          s1.setflag i j = s.setflag i j
          ∧ (s.setflag i j ≠ 0 →
              s1.epsilon i j = s.epsilon i j ∧ s1.sigma i j = s.sigma i j
                ∧ s1.cut i j = s.cut i j) := by
  obtain ⟨-, -, -, -, -, -, -, -, -, -, -, -, f1, f2, f3, f4⟩ := restore_frame h s s0
  exact ⟨restore h s s0, read_write_restart h s s0 rest, f1, f2, f3, f4,
    fun i j hi hij hj => restore_agree h s s0 i j hi hij hj⟩

/-- C10 (evaluation at the failing input). The scenario instance (every pair explicitly
set, `c1 = 1000`, `n1 = 12`) is written by `write_restart` and read by `read_restart` into
a blank instance; the read succeeds and restores `setflag[1][1] = 1`, but `c1` and `n1`
are not in the file, so `init_one(1, 1)` gives `lj1[1][1] = 0` and the kernel reads
`n1[1][1] = 0`, where before the checkpoint `lj1[1][1] = 12000` and `n1[1][1] = 12`. -/
theorem derived_constants_lost_after_restart :
    ∃ s1, read_restart (demoHost ℝ) (blank ℝ) (write_restart (demoHost ℝ) (scenario ℝ) [])
        = .ok (s1, [])
      ∧ s1.setflag 1 1 = 1
      ∧ (init_one ⟨Real.rpow, Real.cos, Real.sin, Real.sqrt⟩ (demoHost ℝ)
          (scenario ℝ) 1 1).1.lj1 1 1 = 12000
      ∧ (init_one ⟨Real.rpow, Real.cos, Real.sin, Real.sqrt⟩ (demoHost ℝ)
          (scenario ℝ) 1 1).1.n1 1 1 = 12
      ∧ (init_one ⟨Real.rpow, Real.cos, Real.sin, Real.sqrt⟩ (demoHost ℝ) s1 1 1).1.lj1 1 1 = 0
      ∧ (init_one ⟨Real.rpow, Real.cos, Real.sin, Real.sqrt⟩ (demoHost ℝ) s1 1 1).1.n1 1 1
          = 0 := by
  have hread := read_write_restart (demoHost ℝ) (scenario ℝ) (blank ℝ) []
  rw [List.append_nil] at hread
  obtain ⟨-, -, -, -, -, -, f7, -, f9, -⟩ := restore_frame (demoHost ℝ) (scenario ℝ) (blank ℝ)
  have hsf := (restore_agree (demoHost ℝ) (scenario ℝ) (blank ℝ) 1 1 (le_refl _) (le_refl _)
    (by simp [demoHost])).1
  obtain ⟨-, -, hn1, -⟩ := init_one_params ⟨Real.rpow, Real.cos, Real.sin, Real.sqrt⟩
    (demoHost ℝ) (restore (demoHost ℝ) (scenario ℝ) (blank ℝ)) 1 1
  obtain ⟨-, -, hn1s, -⟩ := init_one_params ⟨Real.rpow, Real.cos, Real.sin, Real.sqrt⟩
    (demoHost ℝ) (scenario ℝ) 1 1
  refine ⟨_, hread, ?_, ?_, ?_, ?_, ?_⟩
  · rw [hsf]; rfl
  · simp only [init_one_lj1, and_self, true_or, if_true]
    simp only [scenario, blank]
    norm_num
  · rw [hn1s]; rfl
  · simp only [init_one_lj1, and_self, true_or, if_true, f7, f9]
    simp [restore_settings, blank]
  · rw [hn1, f9]; rfl

/-- Witness of the round trip on the scenario instance, restored into a blank one. -/
theorem restart_round_trip_witness :
    ∃ s1, read_restart (demoHost ℚ) (blank ℚ)
        (write_restart (demoHost ℚ) (scenario ℚ) [] ++ []) = .ok (s1, [])
      ∧ s1.cut_global = (scenario ℚ).cut_global ∧ s1.offset_flag = (scenario ℚ).offset_flag
      ∧ s1.mix_flag = (scenario ℚ).mix_flag ∧ s1.tail_flag = (scenario ℚ).tail_flag
      ∧ ∀ i j, 1 ≤ i → i ≤ j → j ≤ (demoHost ℚ).ntypes →
          s1.setflag i j = (scenario ℚ).setflag i j
          ∧ ((scenario ℚ).setflag i j ≠ 0 →
              s1.epsilon i j = (scenario ℚ).epsilon i j ∧ s1.sigma i j = (scenario ℚ).sigma i j
                ∧ s1.cut i j = (scenario ℚ).cut i j) :=
  restart_round_trip (demoHost ℚ) (scenario ℚ) (blank ℚ) []

/-! ## Argument checks of `coeff` -/

/-- C11 (evaluation at the failing input). With three arguments `coeff` raises
`Incorrect args for pair coefficients` and changes nothing; with the four arguments
`1 2 0 0` it passes the check `narg < 4`, allocates, and reads `arg[5]` past the end of
the list; with ten arguments it reads `arg[10]` past the end. -/
theorem coeff_reads_past_end :
    coeff (demoHost ℚ) (blank ℚ) ["1", "2", "0"]
        = .error (Err.error_all "Incorrect args for pair coefficients", blank ℚ)
    ∧ coeff (demoHost ℚ) (blank ℚ) ["1", "2", "0", "0"]
        = .error (Err.arg_past_end 5, allocate (demoHost ℚ) (blank ℚ))
    ∧ coeff (demoHost ℚ) (blank ℚ) ["1", "2", "0", "0", "10", "1000", "12", "-50", "6", "0"]
        = .error (Err.arg_past_end 10, allocate (demoHost ℚ) (blank ℚ)) := by
  have hb : (blank ℚ).allocated = 0 := rfl
  have hb1 : (demoHost ℚ).bounds "1" 1 (demoHost ℚ).ntypes = some (1, 1) := by
    simp [demoHost, demoBounds, natOfChars]
  have hb2 : (demoHost ℚ).bounds "2" 1 (demoHost ℚ).ntypes = some (2, 2) := by
    simp [demoHost, demoBounds, natOfChars]
  have hn0 : (demoHost ℚ).numeric "0" = some 0 := by
    simp [demoHost, demoNumeric, natOfChars]
  have hn1 : (demoHost ℚ).numeric "1000" = some 1000 := by
    simp [demoHost, demoNumeric, natOfChars]
  have hn2 : (demoHost ℚ).numeric "12" = some 12 := by
    simp [demoHost, demoNumeric, natOfChars]
  have hn3 : (demoHost ℚ).numeric "-50" = some (-50) := by
    simp [demoHost, demoNumeric, natOfChars]
  have hn4 : (demoHost ℚ).numeric "6" = some 6 := by
    simp [demoHost, demoNumeric, natOfChars]
  refine ⟨?_, ?_, ?_⟩
  · simp [coeff, throw, throwThe, MonadExceptOf.throw, bind, Except.bind]
  · simp [coeff, boundsArg, numericArg, getArg, List.get?, hb, hb1, hb2, hn0, bind, Except.bind,
      pure, Except.pure]
  · simp [coeff, boundsArg, numericArg, getArg, List.get?, hb, hb1, hb2, hn0, hn1, hn2, hn3, hn4,
      bind, Except.bind, pure, Except.pure]

/-! ## The cutoff, the derived constants and the offset stored by `init_one` -/

/-- The cutoff `cut[i][j]` after `init_one(i, j)`, which is also the returned value, is
the one left by the mixing block. -/
theorem init_one_cut {α : Type} [LinearOrderedField α] (m : MathOps α) (h : Host α)
    (s : Pair α) (i j : Nat) :
    (init_one m h s i j).1.cut = (init_one_mix h s i j).cut
      ∧ (init_one m h s i j).2 = (init_one_mix h s i j).cut i j := by
  simp only [init_one, init_one_mirror, init_one_offset, init_one_lj]
  split_ifs <;> simp

/-- C12 (counterexample). With shifting requested (`offset_flag = 1`) and the pair cutoff
`cut[1][1] = 0`, the call `init_one(1, 1)` does not fail: it returns the cutoff `0` and
stores `lj1 = 12000`, `lj3 = 1000` and the offset `0`. -/
theorem init_one_returns_at_zero_cutoff :
    (scenarioZeroCut ℝ).offset_flag ≠ 0 ∧ (scenarioZeroCut ℝ).cut 1 1 ≤ 0
    ∧ (¬ ∃ e, init_one_call ⟨Real.rpow, Real.cos, Real.sin, Real.sqrt⟩ (demoHost ℝ)
          (scenarioZeroCut ℝ) 1 1 = .error e)
    ∧ (init_one ⟨Real.rpow, Real.cos, Real.sin, Real.sqrt⟩ (demoHost ℝ)
          (scenarioZeroCut ℝ) 1 1).2 = 0
    ∧ (init_one ⟨Real.rpow, Real.cos, Real.sin, Real.sqrt⟩ (demoHost ℝ)
          (scenarioZeroCut ℝ) 1 1).1.lj1 1 1 = 12000
    ∧ (init_one ⟨Real.rpow, Real.cos, Real.sin, Real.sqrt⟩ (demoHost ℝ)
          (scenarioZeroCut ℝ) 1 1).1.lj3 1 1 = 1000
    ∧ (init_one ⟨Real.rpow, Real.cos, Real.sin, Real.sqrt⟩ (demoHost ℝ)
          (scenarioZeroCut ℝ) 1 1).1.offset 1 1 = 0 := by
  refine ⟨?_, ?_, ?_, ?_, ?_, ?_, ?_⟩
  · simp [scenarioZeroCut, scenarioShift]
  · simp [scenarioZeroCut]
  · rintro ⟨e, he⟩
    simp [init_one_call] at he
  · rw [(init_one_cut _ _ _ _ _).2]
    simp [init_one_mix, scenarioZeroCut, scenarioShift, scenario]
  · simp only [init_one_lj1, and_self, true_or, if_true]
    simp only [scenarioZeroCut, scenarioShift, scenario, blank]
    norm_num
  · simp only [init_one_lj3, and_self, true_or, if_true]
    simp [scenarioZeroCut, scenarioShift, scenario, blank]
  · simp [init_one_offset_apply]

/-- C12 (amended). The call `init_one(i, j)` raises no error: when shifting is requested
and the pair cutoff (after the mixing block) is `<= 0`, it returns that cutoff and stores
the offset `0` at `[i][j]` and `[j][i]` and the derived constants `lj1 = n1 * c1`,
`lj2 = n2 * c2`, `lj3 = c1`, `lj4 = c2`. -/
theorem init_one_nonpositive_cutoff_returns {α : Type} [LinearOrderedField α] (m : MathOps α)
    (h : Host α) (s : Pair α) (i j : Nat) (_hflag : s.offset_flag ≠ 0)
    (_hcut : (init_one_mix h s i j).cut i j ≤ 0) :
    ∃ s1, init_one_call m h s i j = .ok (s1, (init_one_mix h s i j).cut i j)
      ∧ s1.offset i j = 0 ∧ s1.offset j i = 0
      ∧ s1.lj1 i j = s.n1 i j * s.c1 i j ∧ s1.lj2 i j = s.n2 i j * s.c2 i j
      ∧ s1.lj3 i j = s.c1 i j ∧ s1.lj4 i j = s.c2 i j := by
  refine ⟨(init_one m h s i j).1, ?_, ?_, ?_, ?_, ?_, ?_, ?_⟩
  · rw [← (init_one_cut m h s i j).2]
    rfl
  · simp [init_one_offset_apply]
  · simp [init_one_offset_apply]
  · simp [init_one_lj1]
  · simp [init_one_lj2]
  · simp [init_one_lj3]
  · simp [init_one_lj4]

/-- Witness for the amended C12: the scenario with shifting requested and cutoff `0`. -/
theorem init_one_nonpositive_cutoff_returns_witness :
    ∃ s1, init_one_call ⟨Real.rpow, Real.cos, Real.sin, Real.sqrt⟩ (demoHost ℝ)
        (scenarioZeroCut ℝ) 1 1
        = .ok (s1, (init_one_mix (demoHost ℝ) (scenarioZeroCut ℝ) 1 1).cut 1 1)
      ∧ s1.offset 1 1 = 0 ∧ s1.offset 1 1 = 0
      ∧ s1.lj1 1 1 = (scenarioZeroCut ℝ).n1 1 1 * (scenarioZeroCut ℝ).c1 1 1
      ∧ s1.lj2 1 1 = (scenarioZeroCut ℝ).n2 1 1 * (scenarioZeroCut ℝ).c2 1 1
      ∧ s1.lj3 1 1 = (scenarioZeroCut ℝ).c1 1 1 ∧ s1.lj4 1 1 = (scenarioZeroCut ℝ).c2 1 1 :=
  init_one_nonpositive_cutoff_returns ⟨Real.rpow, Real.cos, Real.sin, Real.sqrt⟩ (demoHost ℝ)
    (scenarioZeroCut ℝ) 1 1 (by simp [scenarioZeroCut, scenarioShift])
    (by simp [init_one_mix, scenarioZeroCut, scenarioShift, scenario])

/-- C13 (counterexample). With like-pair cutoffs `cut[1][1] = 10` and `cut[2][2] = 20`,
the unlike pair `(1, 2)` not explicitly set, and the distance mixing of the host being the
arithmetic mean, `init_one(1, 2)` sets `cut[1][2] = 15` and returns `15`, not the larger
like-pair cutoff `20`. -/
theorem init_one_unlike_cutoff_not_max :
    (scenarioUnlike ℝ).setflag 1 2 = 0
    ∧ (init_one ⟨Real.rpow, Real.cos, Real.sin, Real.sqrt⟩ (arithmeticHost ℝ)
        (scenarioUnlike ℝ) 1 2).1.cut 1 2 = 15
    ∧ (init_one ⟨Real.rpow, Real.cos, Real.sin, Real.sqrt⟩ (arithmeticHost ℝ)
        (scenarioUnlike ℝ) 1 2).2 = 15
    ∧ max ((scenarioUnlike ℝ).cut 1 1) ((scenarioUnlike ℝ).cut 2 2) = 20
    ∧ (init_one ⟨Real.rpow, Real.cos, Real.sin, Real.sqrt⟩ (arithmeticHost ℝ)
        (scenarioUnlike ℝ) 1 2).2
        ≠ max ((scenarioUnlike ℝ).cut 1 1) ((scenarioUnlike ℝ).cut 2 2) := by
  have hmix : (init_one_mix (arithmeticHost ℝ) (scenarioUnlike ℝ) 1 2).cut 1 2 = 15 := by
    simp [init_one_mix, scenarioUnlike, scenario, blank, arithmeticHost, mix_distance_arithmetic,
      Table.set_apply]
    norm_num
  have hmax : max ((scenarioUnlike ℝ).cut 1 1) ((scenarioUnlike ℝ).cut 2 2) = 20 := by
    simp only [scenarioUnlike]
    norm_num
  refine ⟨?_, ?_, ?_, hmax, ?_⟩
  · simp [scenarioUnlike]
  · rw [(init_one_cut _ _ _ _ _).1, hmix]
  · rw [(init_one_cut _ _ _ _ _).2, hmix]
  · rw [(init_one_cut _ _ _ _ _).2, hmix, hmax]
    norm_num

/-- C13 (amended). For an unlike pair `i != j` that was not explicitly configured
(`setflag[i][j] == 0`), `init_one(i, j)` sets `cut[i][j]` to
`mix_distance(cut[i][i], cut[j][j])`, the distance mixing rule of the host applied to the
two like-pair cutoffs, and returns that value. -/
theorem init_one_unlike_cutoff_mixed {α : Type} [LinearOrderedField α] (m : MathOps α)
    (h : Host α) (s : Pair α) (i j : Nat) (_hij : i ≠ j) (hset : s.setflag i j = 0) :
    (init_one m h s i j).1.cut i j = h.mix_distance s.mix_flag (s.cut i i) (s.cut j j)
      ∧ (init_one m h s i j).2 = h.mix_distance s.mix_flag (s.cut i i) (s.cut j j) := by
  have hmix : (init_one_mix h s i j).cut i j
      = h.mix_distance s.mix_flag (s.cut i i) (s.cut j j) := by
    simp [init_one_mix, hset, Table.set_apply]
  rw [(init_one_cut m h s i j).1, (init_one_cut m h s i j).2, hmix]
  exact ⟨rfl, rfl⟩

/-- Witness for the amended C13: the pair `(1, 2)` of the scenario with like-pair cutoffs
`10` and `20`. -/
theorem init_one_unlike_cutoff_mixed_witness :
    (init_one ⟨Real.rpow, Real.cos, Real.sin, Real.sqrt⟩ (arithmeticHost ℝ)
        (scenarioUnlike ℝ) 1 2).1.cut 1 2
      = (arithmeticHost ℝ).mix_distance (scenarioUnlike ℝ).mix_flag
          ((scenarioUnlike ℝ).cut 1 1) ((scenarioUnlike ℝ).cut 2 2)
    ∧ (init_one ⟨Real.rpow, Real.cos, Real.sin, Real.sqrt⟩ (arithmeticHost ℝ)
        (scenarioUnlike ℝ) 1 2).2
      = (arithmeticHost ℝ).mix_distance (scenarioUnlike ℝ).mix_flag
          ((scenarioUnlike ℝ).cut 1 1) ((scenarioUnlike ℝ).cut 2 2) :=
  init_one_unlike_cutoff_mixed ⟨Real.rpow, Real.cos, Real.sin, Real.sqrt⟩ (arithmeticHost ℝ)
    (scenarioUnlike ℝ) 1 2 (by decide) (by simp [scenarioUnlike])

/-- C14. For every pair `(i, j)` and every prior state, `init_one(i, j)` stores
`lj1[i][j] = n1[i][j] * c1[i][j]`, `lj2[i][j] = n2[i][j] * c2[i][j]`, `lj3[i][j] = c1[i][j]`
and `lj4[i][j] = c2[i][j]` (expressions in which `epsilon`, `sigma`, the cutoff and the
shift flag do not occur) and leaves `c1, c2, n1, n2, k, p` unchanged. -/
theorem init_one_derived_constants {α : Type} [LinearOrderedField α] (m : MathOps α)
    (h : Host α) (s : Pair α) (i j : Nat) :
    (init_one m h s i j).1.lj1 i j = s.n1 i j * s.c1 i j
    ∧ (init_one m h s i j).1.lj2 i j = s.n2 i j * s.c2 i j
    ∧ (init_one m h s i j).1.lj3 i j = s.c1 i j
    ∧ (init_one m h s i j).1.lj4 i j = s.c2 i j
    ∧ (init_one m h s i j).1.c1 = s.c1 ∧ (init_one m h s i j).1.c2 = s.c2
    ∧ (init_one m h s i j).1.n1 = s.n1 ∧ (init_one m h s i j).1.n2 = s.n2
    ∧ (init_one m h s i j).1.k = s.k ∧ (init_one m h s i j).1.p = s.p := by
  refine ⟨?_, ?_, ?_, ?_, init_one_params m h s i j⟩
  · simp [init_one_lj1]
  · simp [init_one_lj2]
  · simp [init_one_lj3]
  · simp [init_one_lj4]

/-- C15. For every input (shift flag set or not, any cutoff, any coefficients)
`init_one(i, j)` leaves `offset[i][j] = offset[j][i] = 0`, so the energy that `compute`
evaluates for the type pair in either order is the unshifted
`(lj3 / r^n1 + lj4 / r^n2 * cos (k r + p)) * factor`. -/
theorem init_one_offset_zero {α : Type} [LinearOrderedField α] (m : MathOps α) (h : Host α)
    (s : Pair α) (i j : Nat) (r factor : α) :
    (init_one m h s i j).1.offset i j = 0 ∧ (init_one m h s i j).1.offset j i = 0
    ∧ evdwl m (init_one m h s i j).1 i j r factor
        = ((init_one m h s i j).1.lj3 i j * (1 / m.pow r ((init_one m h s i j).1.n1 i j))
            + (init_one m h s i j).1.lj4 i j * (1 / m.pow r ((init_one m h s i j).1.n2 i j))
                * m.cos ((init_one m h s i j).1.k i j * r + (init_one m h s i j).1.p i j))
          * factor
    ∧ evdwl m (init_one m h s i j).1 j i r factor
        = ((init_one m h s i j).1.lj3 j i * (1 / m.pow r ((init_one m h s i j).1.n1 j i))
            + (init_one m h s i j).1.lj4 j i * (1 / m.pow r ((init_one m h s i j).1.n2 j i))
                * m.cos ((init_one m h s i j).1.k j i * r + (init_one m h s i j).1.p j i))
          * factor := by
  have h1 : (init_one m h s i j).1.offset i j = 0 := by simp [init_one_offset_apply]
  have h2 : (init_one m h s i j).1.offset j i = 0 := by simp [init_one_offset_apply]
  refine ⟨h1, h2, ?_, ?_⟩
  · simp only [evdwl, h1, sub_zero]
  · simp only [evdwl, h2, sub_zero]

/-! ## Conservation of the total force -/

/-- The sum over the atoms `0 .. N-1` of one force component after one assignment
`f[i][c] = v`. -/
theorem sum_table_set {α : Type} [LinearOrderedField α] (f : Table α) (N i c c' : Nat) (v : α)
    (hi : i < N) :
    ∑ a ∈ Finset.range N, f.set i c v a c'
      = if c' = c then ∑ a ∈ Finset.range N, f a c' + (v - f i c)
        else ∑ a ∈ Finset.range N, f a c' := by
  by_cases hc : c' = c
  · subst hc
    rw [if_pos rfl]
    have hterm : ∀ a, f.set i c' v a c' = f a c' + (if a = i then v - f i c' else 0) := by
      intro a
      by_cases ha : a = i
      · subst ha
        simp [Table.set_apply]
      · simp [Table.set_apply, ha]
    simp only [hterm, Finset.sum_add_distrib, Finset.sum_ite_eq', Finset.mem_range, hi, if_true]
  · rw [if_neg hc]
    refine Finset.sum_congr rfl (fun a _ => ?_)
    simp [Table.set_apply, hc]

/-- With Newton's third law on, the step of `compute` for one neighbor pair of valid atom
indices leaves the sum of every force component unchanged. -/
theorem compute_pair_sum {α : Type} [LinearOrderedField α] (m : MathOps α) (h : Host α)
    (s : Pair α) (atom : Atom α) (force : Force α) (eflag evflag : Int) (N i : Nat)
    (st : ComputeState α) (jraw : Nat) (hn : force.newton_pair ≠ 0) (hi : i < N)
    (hj : h.neighmask jraw < N) (c : Nat) :
    ∑ a ∈ Finset.range N, (compute_pair m h s atom force eflag evflag i st jraw).f a c
      = ∑ a ∈ Finset.range N, st.f a c := by
  have hcond : force.newton_pair ≠ 0 ∨ h.neighmask jraw < atom.nlocal := Or.inl hn
  by_cases hcut : rsq atom i (h.neighmask jraw)
      < s.cutsq (atom.type i) (atom.type (h.neighmask jraw))
  · simp only [compute_pair, if_pos hcut, if_pos hcond]
    simp only [sum_table_set _ N _ _ _ _ hi, sum_table_set _ N _ _ _ _ hj]
    by_cases h0 : c = 0
    · subst h0
      simp
    · by_cases h1 : c = 1
      · subst h1
        simp
      · by_cases h2 : c = 2
        · subst h2
          simp
        · simp [h0, h1, h2]
  · simp only [compute_pair, if_neg hcut]

/-- C16. With the Newton convention in effect (`newton_pair` nonzero), a full pass of
`compute` over a neighbor list of valid atom indices preserves the total force: for each
of the three components, the sum of `f` over all `N` atoms after `compute` equals the sum
before, for all positions, types, coefficients and scaling factors. -/
theorem compute_preserves_total_force {α : Type} [LinearOrderedField α] (m : MathOps α)
    (h : Host α) (s : Pair α) (atom : Atom α) (force : Force α) (list : NeighList)
    (eflag evflag vflag_fdotr : Int) (f0 : Table α) (N : Nat)
    (hn : force.newton_pair ≠ 0)
    (hil : ∀ ii, ii < list.inum → list.ilist ii < N)
    (hjl : ∀ ii jj, ii < list.inum → jj < list.numneigh (list.ilist ii) →
      h.neighmask (list.firstneigh (list.ilist ii) jj) < N) :
    ∀ c, c < 3 →
      ∑ a ∈ Finset.range N,
          (compute m h s atom force list eflag evflag vflag_fdotr f0).f a c
        = ∑ a ∈ Finset.range N, f0 a c := by
  intro c _
  have hloops : ∀ c, ∑ a ∈ Finset.range N,
      ((List.range list.inum).foldl (fun st ii =>
          (List.range (list.numneigh (list.ilist ii))).foldl (fun st jj =>
            compute_pair m h s atom force eflag evflag (list.ilist ii) st
              (list.firstneigh (list.ilist ii) jj)) st)
        (⟨f0, 0, [], false⟩ : ComputeState α)).f a c
      = ∑ a ∈ Finset.range N, f0 a c :=
    foldl_preserves
      (fun st : ComputeState α => ∀ c, ∑ a ∈ Finset.range N, st.f a c
        = ∑ a ∈ Finset.range N, f0 a c)
      (fun st ii =>
        (List.range (list.numneigh (list.ilist ii))).foldl (fun st jj =>
          compute_pair m h s atom force eflag evflag (list.ilist ii) st
            (list.firstneigh (list.ilist ii) jj)) st)
      (List.range list.inum)
      (fun acc ii hii hacc =>
        foldl_preserves
          (fun st : ComputeState α => ∀ c, ∑ a ∈ Finset.range N, st.f a c
            = ∑ a ∈ Finset.range N, f0 a c)
          (fun st jj =>
            compute_pair m h s atom force eflag evflag (list.ilist ii) st
              (list.firstneigh (list.ilist ii) jj))
          (List.range (list.numneigh (list.ilist ii)))
          (fun acc2 jj hjj hacc2 c => by
            rw [compute_pair_sum m h s atom force eflag evflag N (list.ilist ii) acc2
              (list.firstneigh (list.ilist ii) jj) hn (hil ii (List.mem_range.mp hii))
              (hjl ii jj (List.mem_range.mp hii) (List.mem_range.mp hjj)) c]
            exact hacc2 c)
          acc hacc)
      ⟨f0, 0, [], false⟩ (fun _ => rfl)
  simp only [compute]
  split_ifs
  · exact hloops c
  · exact hloops c

/-- Witness for C16: one pass over the single pair `(0, 1)` of two atoms at distance `3`,
inside the cutoff, after `init_one(1, 2)` on the scenario; the x components of the two
forces sum to the initial `0`. -/
theorem compute_preserves_total_force_witness :
    (plainForce ℝ).newton_pair ≠ 0
    ∧ ∑ a ∈ Finset.range 2,
          (compute ⟨Real.rpow, Real.cos, Real.sin, Real.sqrt⟩ (demoHost ℝ)
            (init_one ⟨Real.rpow, Real.cos, Real.sin, Real.sqrt⟩ (demoHost ℝ)
              { scenario ℝ with cutsq := fun _ _ => 100 } 1 2).1
            (twoAtoms ℝ) (plainForce ℝ) onePairList 1 1 0 (fun _ _ => 0)).f a 0
        = ∑ a ∈ Finset.range 2, (fun _ _ => (0 : ℝ)) a 0 :=
  ⟨by simp [plainForce],
   compute_preserves_total_force ⟨Real.rpow, Real.cos, Real.sin, Real.sqrt⟩ (demoHost ℝ)
    (init_one ⟨Real.rpow, Real.cos, Real.sin, Real.sqrt⟩ (demoHost ℝ)
      { scenario ℝ with cutsq := fun _ _ => 100 } 1 2).1
    (twoAtoms ℝ) (plainForce ℝ) onePairList 1 1 0 (fun _ _ => 0) 2
    (by simp [plainForce]) (by intro ii _; simp [onePairList])
    (by intro ii jj _ _; simp [onePairList, demoHost]) 0 (by norm_num)⟩

/-! ## `single` and `born_matrix` -/

theorem sqrt_four : Real.sqrt 4 = 2 := by
  rw [show (4 : ℝ) = 2 ^ 2 by norm_num]
  exact Real.sqrt_sq (by norm_num)

/-- C17 (evaluation at the failing input). After `init_one(1, 1)` on the scenario
(`lj1 = 12000`, `lj2 = -300`, `lj3 = 1000`, `lj4 = -50`, offset `0`), `single` at
`rsq = 4` with `factor_lj = 1` returns the energy `525/512` and sets `fforce = 975/512`,
while the kernel of `compute` at `r = sqrt(4)` gives the energy `-275/512` and
`fpair = -225/512`. -/
theorem single_differs_from_kernel :
    (single (init_one ⟨Real.rpow, Real.cos, Real.sin, Real.sqrt⟩ (demoHost ℝ)
        (scenario ℝ) 1 1).1 0 1 1 1 4 1 1).1 = 525 / 512
    ∧ (single (init_one ⟨Real.rpow, Real.cos, Real.sin, Real.sqrt⟩ (demoHost ℝ)
        (scenario ℝ) 1 1).1 0 1 1 1 4 1 1).2 = 975 / 512
    ∧ evdwl ⟨Real.rpow, Real.cos, Real.sin, Real.sqrt⟩
        (init_one ⟨Real.rpow, Real.cos, Real.sin, Real.sqrt⟩ (demoHost ℝ) (scenario ℝ) 1 1).1
        1 1 (Real.sqrt 4) 1 = -275 / 512
    ∧ fpair ⟨Real.rpow, Real.cos, Real.sin, Real.sqrt⟩
        (init_one ⟨Real.rpow, Real.cos, Real.sin, Real.sqrt⟩ (demoHost ℝ) (scenario ℝ) 1 1).1
        1 1 (Real.sqrt 4) 1 = -225 / 512 := by
  obtain ⟨-, -, hn1, hn2, hk, hp⟩ :=
    init_one_params ⟨Real.rpow, Real.cos, Real.sin, Real.sqrt⟩ (demoHost ℝ) (scenario ℝ) 1 1
  refine ⟨?_, ?_, ?_, ?_⟩
  · simp only [single, init_one_lj3, init_one_lj4, init_one_offset_apply, and_self, true_or,
      if_true]
    simp only [scenario, blank]
    norm_num
  · simp only [single, init_one_lj1, init_one_lj2, and_self, true_or, if_true]
    simp only [scenario, blank]
    norm_num
  · simp only [evdwl, init_one_lj3, init_one_lj4, init_one_offset_apply, hn1, hn2, hk, hp,
      and_self, true_or, if_true, Real.rpow_eq_pow, sqrt_four]
    simp only [scenario, blank, rpow_twelve, rpow_six]
    norm_num
  · simp only [fpair, forcelj, force1, force2, force3, init_one_lj1, init_one_lj2,
      init_one_lj4, hn1, hn2, hk, hp, and_self, true_or, if_true, Real.rpow_eq_pow, sqrt_four]
    simp only [scenario, blank]
    rw [show (12 : ℝ) + 1 = ((13 : ℕ) : ℝ) by norm_num,
      show (6 : ℝ) + 1 = ((7 : ℕ) : ℝ) by norm_num, Real.rpow_natCast, Real.rpow_natCast,
      rpow_six]
    norm_num

/-- C18. `born_matrix` is consistent with `single`: for every type pair, `rsq > 0` and
`factor_lj`, the `dupair` it returns equals `-fforce * r` with `fforce` the value set by
`single` for the same arguments and `r = sqrt(rsq)`; and at every `r > 0` the `du2pair`
returned for `rsq = r^2` is the derivative with respect to `r` of `dupair` viewed as a
function of `r`. -/
theorem born_matrix_consistent_with_single (s : Pair ℝ) (i j itype jtype : Nat)
    (factor_coul factor_lj rsq r : ℝ) (hrsq : 0 < rsq) (hr : 0 < r) :
    (born_matrix ⟨Real.rpow, Real.cos, Real.sin, Real.sqrt⟩ s i j itype jtype rsq factor_coul
        factor_lj).1
      = -(single s i j itype jtype rsq factor_coul factor_lj).2 * Real.sqrt rsq
    ∧ HasDerivAt
        (fun x : ℝ => (born_matrix ⟨Real.rpow, Real.cos, Real.sin, Real.sqrt⟩ s i j itype jtype
          (x ^ 2) factor_coul factor_lj).1)
        (born_matrix ⟨Real.rpow, Real.cos, Real.sin, Real.sqrt⟩ s i j itype jtype (r ^ 2)
          factor_coul factor_lj).2 r := by
  constructor
  · have ht : 0 < Real.sqrt rsq := Real.sqrt_pos.mpr hrsq
    have hsq : rsq = Real.sqrt rsq ^ 2 := (Real.sq_sqrt hrsq.le).symm
    simp only [born_matrix, single, one_div, Real.sqrt_inv]
    generalize Real.sqrt rsq = t at ht hsq
    subst hsq
    field_simp
    ring
  · have hr0 : r ≠ 0 := hr.ne'
    have h7 : HasDerivAt (fun x : ℝ => (x ^ 7)⁻¹) (-((7 : ℕ) * r ^ (7 - 1)) / (r ^ 7) ^ 2) r :=
      (hasDerivAt_pow 7 r).inv (pow_ne_zero 7 hr0)
    have h13 : HasDerivAt (fun x : ℝ => (x ^ 13)⁻¹)
        (-((13 : ℕ) * r ^ (13 - 1)) / (r ^ 13) ^ 2) r :=
      (hasDerivAt_pow 13 r).inv (pow_ne_zero 13 hr0)
    have hg := ((h7.const_mul (s.lj2 itype jtype)).sub
      (h13.const_mul (s.lj1 itype jtype))).const_mul factor_lj
    have hEq : (fun x : ℝ => (born_matrix ⟨Real.rpow, Real.cos, Real.sin, Real.sqrt⟩ s i j
          itype jtype (x ^ 2) factor_coul factor_lj).1)
        =ᶠ[nhds r] fun x => factor_lj * (s.lj2 itype jtype * (x ^ 7)⁻¹
            - s.lj1 itype jtype * (x ^ 13)⁻¹) := by
      filter_upwards [Ioi_mem_nhds hr] with x hx
      have hx0 : (0 : ℝ) < x := hx
      simp only [born_matrix, one_div, Real.sqrt_inv, Real.sqrt_sq hx0.le]
      field_simp
      ring
    refine (hg.congr_of_eventuallyEq hEq).congr_deriv ?_
    simp only [born_matrix]
    field_simp
    ring

/-- Witness for C18: the scenario after `init_one(1, 1)`, at `rsq = 4` and `r = 2`. -/
theorem born_matrix_consistent_with_single_witness :
    (0 : ℝ) < 4 ∧ (0 : ℝ) < 2
    ∧ (born_matrix ⟨Real.rpow, Real.cos, Real.sin, Real.sqrt⟩
        (init_one ⟨Real.rpow, Real.cos, Real.sin, Real.sqrt⟩ (demoHost ℝ) (scenario ℝ) 1 1).1
        0 1 1 1 4 1 1).1
      = -(single (init_one ⟨Real.rpow, Real.cos, Real.sin, Real.sqrt⟩ (demoHost ℝ)
          (scenario ℝ) 1 1).1 0 1 1 1 4 1 1).2 * Real.sqrt 4
    ∧ HasDerivAt
        (fun x : ℝ => (born_matrix ⟨Real.rpow, Real.cos, Real.sin, Real.sqrt⟩
          (init_one ⟨Real.rpow, Real.cos, Real.sin, Real.sqrt⟩ (demoHost ℝ) (scenario ℝ) 1 1).1
          0 1 1 1 (x ^ 2) 1 1).1)
        (born_matrix ⟨Real.rpow, Real.cos, Real.sin, Real.sqrt⟩
          (init_one ⟨Real.rpow, Real.cos, Real.sin, Real.sqrt⟩ (demoHost ℝ) (scenario ℝ) 1 1).1
          0 1 1 1 (2 ^ 2) 1 1).2 2 :=
  ⟨by norm_num, by norm_num,
   born_matrix_consistent_with_single
     (init_one ⟨Real.rpow, Real.cos, Real.sin, Real.sqrt⟩ (demoHost ℝ) (scenario ℝ) 1 1).1
     0 1 1 1 1 1 4 2 (by norm_num) (by norm_num)⟩

/-! ## The frame of `coeff` -/

theorem coeff_body_other {α : Type} (v : CoeffVals α) (s : Pair α) (i j : Nat)
    (st : Pair α × Int) (hst : CoeffOther s st.1) : CoeffOther s (coeff_body v i st j).1 := by
  simpa [CoeffOther, coeff_body] using hst

/-- The double loop of `coeff` changes none of the members it does not write. -/
theorem coeff_loops_other {α : Type} (v : CoeffVals α) (ilo ihi jlo jhi : Nat) (s : Pair α) :
    CoeffOther s (coeff_loops v ilo ihi jlo jhi s).1 :=
  foldl_preserves (fun st => CoeffOther s st.1)
    (fun st i => forLoop (max jlo i) jhi (coeff_body v i) st)
    (List.range' ilo (ihi + 1 - ilo))
    (fun acc i _ hacc =>
      foldl_preserves (fun st => CoeffOther s st.1) (coeff_body v i)
        (List.range' (max jlo i) (jhi + 1 - max jlo i))
        (fun acc2 j _ hacc2 => coeff_body_other v s i j acc2 hacc2) acc hacc)
    (s, 0) ⟨rfl, rfl, rfl, rfl, rfl, rfl, rfl, rfl, rfl, rfl, rfl⟩

/-- When the range of `coeff` contains no pair the counter stays `0`. -/
theorem coeff_loops_count_zero {α : Type} (v : CoeffVals α) (ilo ihi jlo jhi : Nat)
    (s : Pair α) (hempty : ¬∃ i j, InCoeffRange ilo ihi jlo jhi i j) :
    (coeff_loops v ilo ihi jlo jhi s).2 = 0 :=
  foldl_preserves (fun st : Pair α × Int => st.2 = 0)
    (fun st i => forLoop (max jlo i) jhi (coeff_body v i) st)
    (List.range' ilo (ihi + 1 - ilo))
    (fun acc i hi hacc =>
      foldl_preserves (fun st : Pair α × Int => st.2 = 0) (coeff_body v i)
        (List.range' (max jlo i) (jhi + 1 - max jlo i))
        (fun _ j hj _ =>
          absurd ⟨i, j, (mem_forLoop_range _ _ _).mp hi, (mem_forLoop_range _ _ _).mp hj⟩
            hempty) acc hacc)
    (s, 0) rfl

/-- A call of `coeff` with eleven arguments that parse raises
`Incorrect args for pair coefficients` when its counter is `0` and returns normally
otherwise, in both cases with the state produced by its double loop. -/
theorem coeff_eq_ite {α : Type} [LinearOrderedField α] (h : Host α) (s : Pair α)
    (a0 a1 a2 a3 a4 a5 a6 a7 a8 a9 a10 : String) (ilo ihi jlo jhi : Nat) (v : CoeffVals α)
    (hb0 : h.bounds a0 1 h.ntypes = some (ilo, ihi))
    (hb1 : h.bounds a1 1 h.ntypes = some (jlo, jhi))
    (h2 : h.numeric a2 = some v.epsilon_one) (h3 : h.numeric a3 = some v.sigma_one)
    (h4 : h.numeric a4 = some v.cut_one) (h5 : h.numeric a5 = some v.c_one)
    (h6 : h.numeric a6 = some v.eta_one) (h7 : h.numeric a7 = some v.c_two)
    (h8 : h.numeric a8 = some v.eta_two) (h9 : h.numeric a9 = some v.k_star)
    (h10 : h.numeric a10 = some v.phi_star) :
    coeff h s [a0, a1, a2, a3, a4, a5, a6, a7, a8, a9, a10]
      = if (coeff_loops v ilo ihi jlo jhi (if s.allocated = 0 then allocate h s else s)).2 = 0
        then .error (Err.error_all "Incorrect args for pair coefficients",
          (coeff_loops v ilo ihi jlo jhi (if s.allocated = 0 then allocate h s else s)).1)
        else .ok (coeff_loops v ilo ihi jlo jhi
          (if s.allocated = 0 then allocate h s else s)).1 := by
  simp only [coeff, boundsArg, numericArg, getArg, List.get?, hb0, hb1, h2, h3, h4, h5, h6, h7,
    h8, h9, h10, List.length_cons, List.length_nil, bind, Except.bind, pure, Except.pure]
  split_ifs <;> simp_all [throw, throwThe, MonadExceptOf.throw]

/-- The same for a call of `coeff` with eleven or more arguments: the cutoff stored is the
parsed `arg[4]` when there are exactly eleven arguments and `cut_global` otherwise. -/
theorem coeff_eq_ite_tail {α : Type} [LinearOrderedField α] (h : Host α) (s : Pair α)
    (a0 a1 a2 a3 a4 a5 a6 a7 a8 a9 a10 : String) (tail : List String)
    (ilo ihi jlo jhi : Nat) (v : CoeffVals α)
    (hb0 : h.bounds a0 1 h.ntypes = some (ilo, ihi))
    (hb1 : h.bounds a1 1 h.ntypes = some (jlo, jhi))
    (h2 : h.numeric a2 = some v.epsilon_one) (h3 : h.numeric a3 = some v.sigma_one)
    (h4 : tail = [] → h.numeric a4 = some v.cut_one)
    (h4c : tail ≠ [] → v.cut_one = s.cut_global)
    (h5 : h.numeric a5 = some v.c_one)
    (h6 : h.numeric a6 = some v.eta_one) (h7 : h.numeric a7 = some v.c_two)
    (h8 : h.numeric a8 = some v.eta_two) (h9 : h.numeric a9 = some v.k_star)
    (h10 : h.numeric a10 = some v.phi_star) :
    coeff h s (a0 :: a1 :: a2 :: a3 :: a4 :: a5 :: a6 :: a7 :: a8 :: a9 :: a10 :: tail)
      = if (coeff_loops v ilo ihi jlo jhi (if s.allocated = 0 then allocate h s else s)).2 = 0
        then .error (Err.error_all "Incorrect args for pair coefficients",
          (coeff_loops v ilo ihi jlo jhi (if s.allocated = 0 then allocate h s else s)).1)
        else .ok (coeff_loops v ilo ihi jlo jhi
          (if s.allocated = 0 then allocate h s else s)).1 := by
  cases tail with
  | nil =>
    exact coeff_eq_ite h s a0 a1 a2 a3 a4 a5 a6 a7 a8 a9 a10 ilo ihi jlo jhi v hb0 hb1 h2 h3
      (h4 rfl) h5 h6 h7 h8 h9 h10
  | cons b bs =>
    have hcg : v.cut_one = (if s.allocated = 0 then allocate h s else s).cut_global := by
      rw [h4c (by simp)]
      split_ifs
      · obtain ⟨-, -, -, -, -, -, -, -, -, -, -, -, -, -, -, hg, -⟩ := allocate_same h s
        exact hg.symm
      · rfl
    obtain ⟨e, sg, c, c1, n1, c2, n2, k, p⟩ := v
    simp only at h2 h3 h5 h6 h7 h8 h9 h10 hcg
    subst hcg
    have hlen : ¬ (bs.length + 1 + 1 + 1 + 1 + 1 + 1 + 1 + 1 + 1 + 1 + 1 + 1 < 4) := by omega
    have hlen2 : ¬ (bs.length + 1 + 1 + 1 + 1 + 1 + 1 + 1 + 1 + 1 + 1 + 1 + 1 = 11) := by omega
    simp only [coeff, boundsArg, numericArg, getArg, List.get?, hb0, hb1, h2, h3, h5, h6, h7,
      h8, h9, h10, List.length_cons, bind, Except.bind, pure, Except.pure, hlen, hlen2,
      if_false]

/-- C19 (counterexample). The twelve arguments `1 2 0 0 10 1000 12 -50 6 0 0 0` pass every
check of `coeff` on an instance with `cut_global = 7`: the call returns normally and sets
`setflag[1][2] = 1`, but because `narg` is not `11` it stores `cut[1][2] = 7`, the global
cutoff, and not the supplied cutoff `10`. -/
theorem coeff_twelve_args_store_cut_global :
    (demoHost ℚ).numeric "10" = some 10
    ∧ ∃ s1, coeff (demoHost ℚ) { blank ℚ with cut_global := 7 }
          ["1", "2", "0", "0", "10", "1000", "12", "-50", "6", "0", "0", "0"] = .ok s1
        ∧ s1.setflag 1 2 = 1 ∧ s1.c1 1 2 = 1000 ∧ s1.cut 1 2 = 7 ∧ s1.cut 1 2 ≠ 10 := by
  have hin := coeff_loops_in_range (⟨0, 0, 7, 1000, 12, -50, 6, 0, 0⟩ : CoeffVals ℚ) 1 1 2 2
    (if ({ blank ℚ with cut_global := 7 } : Pair ℚ).allocated = 0
      then allocate (demoHost ℚ) { blank ℚ with cut_global := 7 }
      else { blank ℚ with cut_global := 7 }) 1 2 (by omega) (by simp)
  have hcoeff := coeff_eq_ite_tail (demoHost ℚ) { blank ℚ with cut_global := 7 }
    "1" "2" "0" "0" "10" "1000" "12" "-50" "6" "0" "0" ["0"] 1 1 2 2
    ⟨0, 0, 7, 1000, 12, -50, 6, 0, 0⟩
    (by simp [demoHost, demoBounds, natOfChars]) (by simp [demoHost, demoBounds, natOfChars])
    (by simp [demoHost, demoNumeric, natOfChars]) (by simp [demoHost, demoNumeric, natOfChars])
    (by simp) (by intro _; rfl)
    (by simp [demoHost, demoNumeric, natOfChars]) (by simp [demoHost, demoNumeric, natOfChars])
    (by simp [demoHost, demoNumeric, natOfChars]) (by simp [demoHost, demoNumeric, natOfChars])
    (by simp [demoHost, demoNumeric, natOfChars]) (by simp [demoHost, demoNumeric, natOfChars])
  rw [if_neg (ne_of_gt hin.2)] at hcoeff
  obtain ⟨-, -, e3, e4, e5, -⟩ := hin.1
  refine ⟨by simp [demoHost, demoNumeric, natOfChars], _, hcoeff, e4, e5, e3, ?_⟩
  rw [e3]
  norm_num

/-- C19 (amended). A call of `coeff` with eleven or more arguments that parse, with type
ranges `[ilo, ihi]` and `[jlo, jhi]`, and with `s0` the instance once its tables are
allocated: if some pair satisfies `ilo <= i <= ihi` and `max(jlo, i) <= j <= jhi`, the call
returns normally, has set `setflag = 1` and stored the supplied `epsilon, sigma, c1, c2,
n1, n2, k, p` and the cutoff `cut_one` (the supplied cutoff when there are exactly eleven
arguments, `cut_global` otherwise) at exactly those pairs, and has left every other entry
of these tables and every other member as in `s0`; if no pair does, it raises
`Incorrect args for pair coefficients` with all members as in `s0`; and it raises that
error if and only if the set of pairs is empty. -/
theorem coeff_sets_exactly_range {α : Type} [LinearOrderedField α] (h : Host α) (s : Pair α)
    (a0 a1 a2 a3 a4 a5 a6 a7 a8 a9 a10 : String) (tail : List String)
    (ilo ihi jlo jhi : Nat) (v : CoeffVals α)
    (hb0 : h.bounds a0 1 h.ntypes = some (ilo, ihi))
    (hb1 : h.bounds a1 1 h.ntypes = some (jlo, jhi))
    (h2 : h.numeric a2 = some v.epsilon_one) (h3 : h.numeric a3 = some v.sigma_one)
    (h4 : tail = [] → h.numeric a4 = some v.cut_one)
    (h4c : tail ≠ [] → v.cut_one = s.cut_global)
    (h5 : h.numeric a5 = some v.c_one)
    (h6 : h.numeric a6 = some v.eta_one) (h7 : h.numeric a7 = some v.c_two)
    (h8 : h.numeric a8 = some v.eta_two) (h9 : h.numeric a9 = some v.k_star)
    (h10 : h.numeric a10 = some v.phi_star) :
    ((∃ i j, InCoeffRange ilo ihi jlo jhi i j) →
      ∃ s1, coeff h s (a0 :: a1 :: a2 :: a3 :: a4 :: a5 :: a6 :: a7 :: a8 :: a9 :: a10 :: tail)
          = .ok s1
        ∧ (∀ a b, InCoeffRange ilo ihi jlo jhi a b → CoeffSet v s1 a b)
        ∧ (∀ a b, ¬InCoeffRange ilo ihi jlo jhi a b →
            CoeffSame (if s.allocated = 0 then allocate h s else s) s1 a b)
        ∧ CoeffOther (if s.allocated = 0 then allocate h s else s) s1)
    ∧ ((¬∃ i j, InCoeffRange ilo ihi jlo jhi i j) →
      ∃ s1, coeff h s (a0 :: a1 :: a2 :: a3 :: a4 :: a5 :: a6 :: a7 :: a8 :: a9 :: a10 :: tail)
          = .error (Err.error_all "Incorrect args for pair coefficients", s1)
        ∧ (∀ a b, CoeffSame (if s.allocated = 0 then allocate h s else s) s1 a b)
        ∧ CoeffOther (if s.allocated = 0 then allocate h s else s) s1)
    ∧ ((∃ s1, coeff h s
          (a0 :: a1 :: a2 :: a3 :: a4 :: a5 :: a6 :: a7 :: a8 :: a9 :: a10 :: tail)
          = .error (Err.error_all "Incorrect args for pair coefficients", s1))
        ↔ ¬∃ i j, InCoeffRange ilo ihi jlo jhi i j) := by
  have hcoeff := coeff_eq_ite_tail h s a0 a1 a2 a3 a4 a5 a6 a7 a8 a9 a10 tail ilo ihi jlo jhi v
    hb0 hb1 h2 h3 h4 h4c h5 h6 h7 h8 h9 h10
  have hok : (∃ i j, InCoeffRange ilo ihi jlo jhi i j) →
      coeff h s (a0 :: a1 :: a2 :: a3 :: a4 :: a5 :: a6 :: a7 :: a8 :: a9 :: a10 :: tail)
        = .ok (coeff_loops v ilo ihi jlo jhi
            (if s.allocated = 0 then allocate h s else s)).1 := by
    rintro ⟨i, j, hi, hj⟩
    have hpos := (coeff_loops_in_range v ilo ihi jlo jhi
      (if s.allocated = 0 then allocate h s else s) i j hi hj).2
    rw [hcoeff, if_neg (ne_of_gt hpos)]
  have herr : (¬∃ i j, InCoeffRange ilo ihi jlo jhi i j) →
      coeff h s (a0 :: a1 :: a2 :: a3 :: a4 :: a5 :: a6 :: a7 :: a8 :: a9 :: a10 :: tail)
        = .error (Err.error_all "Incorrect args for pair coefficients",
            (coeff_loops v ilo ihi jlo jhi
              (if s.allocated = 0 then allocate h s else s)).1) := by
    intro hempty
    rw [hcoeff, if_pos (coeff_loops_count_zero v ilo ihi jlo jhi _ hempty)]
  refine ⟨?_, ?_, ?_⟩
  · intro hex
    exact ⟨_, hok hex,
      fun a b hab => (coeff_loops_in_range v ilo ihi jlo jhi _ a b hab.1 hab.2).1,
      fun a b hab => coeff_loops_frame v ilo ihi jlo jhi _ a b hab,
      coeff_loops_other v ilo ihi jlo jhi _⟩
  · intro hempty
    exact ⟨_, herr hempty,
      fun a b => coeff_loops_frame v ilo ihi jlo jhi _ a b
        (fun hab => hempty ⟨a, b, hab⟩),
      coeff_loops_other v ilo ihi jlo jhi _⟩
  · constructor
    · rintro ⟨s1, hs1⟩ hex
      rw [hok hex] at hs1
      cases hs1
    · intro hempty
      exact ⟨_, herr hempty⟩

/-- Witness for the amended C19: `pair_coeff 1 2 0 0 10 1000 12 -50 6 0 0` on a blank
instance with two atom types.  The range is the single pair `(1, 2)`: the call returns
normally, `(1, 2)` holds `setflag = 1`, the supplied cutoff `10`, `c1 = 1000` and
`n1 = 12`, the entries at `(2, 1)` outside the range are still `0`, and no
`Incorrect args for pair coefficients` error is raised. -/
theorem coeff_sets_exactly_range_witness :
    ∃ s1, coeff (demoHost ℚ) (blank ℚ)
        ["1", "2", "0", "0", "10", "1000", "12", "-50", "6", "0", "0"] = .ok s1
      ∧ s1.setflag 1 2 = 1 ∧ s1.cut 1 2 = 10 ∧ s1.c1 1 2 = 1000 ∧ s1.n1 1 2 = 12
      ∧ s1.c1 2 1 = 0 ∧ s1.n1 2 1 = 0 ∧ s1.offset_flag = 0
      ∧ ¬∃ st, coeff (demoHost ℚ) (blank ℚ)
          ["1", "2", "0", "0", "10", "1000", "12", "-50", "6", "0", "0"]
          = .error (Err.error_all "Incorrect args for pair coefficients", st) := by
  obtain ⟨hA, -, hC⟩ := coeff_sets_exactly_range (demoHost ℚ) (blank ℚ)
    "1" "2" "0" "0" "10" "1000" "12" "-50" "6" "0" "0" [] 1 1 2 2
    ⟨0, 0, 10, 1000, 12, -50, 6, 0, 0⟩
    (by simp [demoHost, demoBounds, natOfChars]) (by simp [demoHost, demoBounds, natOfChars])
    (by simp [demoHost, demoNumeric, natOfChars]) (by simp [demoHost, demoNumeric, natOfChars])
    (by intro _; simp [demoHost, demoNumeric, natOfChars]) (by simp)
    (by simp [demoHost, demoNumeric, natOfChars]) (by simp [demoHost, demoNumeric, natOfChars])
    (by simp [demoHost, demoNumeric, natOfChars]) (by simp [demoHost, demoNumeric, natOfChars])
    (by simp [demoHost, demoNumeric, natOfChars]) (by simp [demoHost, demoNumeric, natOfChars])
  have hex : ∃ i j, InCoeffRange 1 1 2 2 i j := ⟨1, 2, ⟨by omega, by omega⟩, ⟨by simp, by omega⟩⟩
  obtain ⟨s1, hs1, hset, hsame, hother⟩ := hA hex
  obtain ⟨-, -, e3, e4, e5, -, e7, -⟩ := hset 1 2 ⟨⟨by omega, by omega⟩, ⟨by simp, by omega⟩⟩
  obtain ⟨-, -, -, -, g5, -, g7, -⟩ := hsame 2 1 (fun hab => by
    have := hab.1.2
    omega)
  obtain ⟨-, -, -, -, -, -, -, -, of, -⟩ := hother
  obtain ⟨-, -, -, -, -, -, -, -, -, a1, -, a3, -, -, -, -, a7, -⟩ :=
    allocate_same (demoHost ℚ) (blank ℚ)
  have hb : (blank ℚ).allocated = 0 := rfl
  rw [if_pos hb] at g5 g7 of
  rw [a1] at g5
  rw [a3] at g7
  rw [a7] at of
  exact ⟨s1, hs1, e4, e3, e5, e7, g5, g7, of, fun herr => (hC.mp herr) hex⟩

end PairLJEopp
